import Mathlib

/-!
Shallow embedding of the synthetic display-topology generator of the
`convertible-couch` repository (`src/tests_common/src/fuzzing/computer.rs` and
`src/tests_common/src/fuzzing/monitor.rs`), with spec-modelled stand-ins for
the sibling modules that are not present under `src/` (position, resolution,
monitor_name, config_mod_info_id, gsm_id, device_id, video_output, win32, and
the external `rand` crate).

The pseudo-random generator `StdRng` of the `rand` crate is modelled as a
deterministic stream: a state `(seed, pos)` together with an entropy function
`E : Nat → Nat → Nat` mapping `(seed, position)` to the raw 64-bit output.
Every theorem below is quantified over `E`, so nothing depends on a particular
stream; concrete witnesses instantiate `E` with a simple executable function.
`Option` models Rust panics (`assert!`, out-of-bounds `gen_range`): `none` is
an abort, never a caller-recoverable error value.
-/

namespace ConvertibleCouch

/-- `DISP_CHANGE` of the Win32 API is an `i32` newtype; modelled as `Int`. -/
abbrev DISP_CHANGE := Int

/-- Model of `rand::rngs::StdRng`: a deterministic stream position. The raw
outputs are given by an entropy function `E` passed to the draw operations. -/
structure StdRng where
  seed : Nat
  pos : Nat
deriving DecidableEq

/-- `StdRng::seed_from_u64`: a fresh generator fully determined by the seed. -/
def StdRng.seed_from_u64 (s : Nat) : StdRng :=
  ⟨s % 2 ^ 64, 0⟩

/-- `RngCore::next_u64`: draw the next raw value and advance the stream. -/
def StdRng.next_u64 (E : Nat → Nat → Nat) (r : StdRng) : Nat × StdRng :=
  (E r.seed r.pos % 2 ^ 64, ⟨r.seed, r.pos + 1⟩)

/-- `Rng::gen_range(lo..=hi)` on `usize`: a value in `[lo, hi]`; the empty
range (`hi < lo`) panics in Rust, modelled by `none`. -/
def StdRng.gen_range_incl (E : Nat → Nat → Nat) (r : StdRng) (lo hi : Nat) :
    Option (Nat × StdRng) :=
  if lo ≤ hi then
    some (lo + (r.next_u64 E).1 % (hi - lo + 1), (r.next_u64 E).2)
  else none

/-- `Rng::gen_range(lo..hi)` on `usize`: a value in `[lo, hi)`; the empty
range (`hi ≤ lo`) panics in Rust, modelled by `none`. -/
def StdRng.gen_range_excl (E : Nat → Nat → Nat) (r : StdRng) (lo hi : Nat) :
    Option (Nat × StdRng) :=
  if lo < hi then
    some (lo + (r.next_u64 E).1 % (hi - lo), (r.next_u64 E).2)
  else none

/-- Modelled from the spec: the `rand` crate's `choose_multiple` (sampling
without replacement, §9 "Random subset selection"): repeatedly draw an index
into the remaining candidates, take that element out, `k` times.  Returns the
chosen elements (distinct positions of the input) and the advanced generator. -/
def sampleWithoutReplacement (E : Nat → Nat → Nat) {α : Type}
    : StdRng → List α → Nat → List α × StdRng
  | r, _, 0 => ([], r)
  | r, xs, k + 1 =>
    match xs with
    | [] => ([], r)
    | y :: ys =>
      let i : Fin (y :: ys).length :=
        ⟨(r.next_u64 E).1 % (y :: ys).length, Nat.mod_lt _ (Nat.succ_pos _)⟩
      let res := sampleWithoutReplacement E (r.next_u64 E).2 ((y :: ys).eraseIdx i.1) k
      ((y :: ys).get i :: res.1, res.2)

/-- `FuzzedResolution` (resolution.rs, missing from src/): a width × height pair. -/
structure FuzzedResolution where
  width : Nat
  height : Nat
deriving DecidableEq

/-- `FuzzedMonitorPosition` (position.rs, missing from src/): an anchor point. -/
structure FuzzedMonitorPosition where
  x : Int
  y : Int
deriving DecidableEq

/-- `FuzzedMonitorPosition::is_positioned_at_origin` (position.rs, missing from
src/; contract from spec §4.3: `primary := position == origin`). -/
def FuzzedMonitorPosition.is_positioned_at_origin (p : FuzzedMonitorPosition) : Bool :=
  p.x == 0 && p.y == 0

/-- `FuzzedMonitorPositionedResolution` (position.rs, missing from src/). -/
structure FuzzedMonitorPositionedResolution where
  position : FuzzedMonitorPosition
  resolution : FuzzedResolution
deriving DecidableEq

instance : Inhabited FuzzedMonitorPositionedResolution :=
  ⟨⟨⟨0, 0⟩, ⟨0, 0⟩⟩⟩

/-- `FuzzedMonitor` (monitor.rs lines 12–20). -/
structure FuzzedMonitor where
  name : String
  primary : Bool
  config_mode_info_id : Nat
  device_id : String
  resolution : FuzzedResolution
  position : FuzzedMonitorPosition
deriving DecidableEq

/-- `FuzzedVideoOutput` (video_output.rs, missing from src/; fields read in
computer.rs: `device_name`, `monitor`). -/
structure FuzzedVideoOutput where
  device_name : String
  monitor : Option FuzzedMonitor
deriving DecidableEq

/-- Modelled from the spec: `FuzzedVideoOutput::plug_monitor` (video_output.rs,
missing from src/): populate the slot with a monitor (§4.4, §4.5 step 3). -/
def FuzzedVideoOutput.plug_monitor (vo : FuzzedVideoOutput) (m : FuzzedMonitor) :
    FuzzedVideoOutput :=
  ⟨vo.device_name, some m⟩

/-- Modelled from the spec: injective encoding of a counter into a generated
monitor name (monitor_name.rs is missing from src/; §4.1 requires pairwise
distinct values within a batch, §3 requires generated names to be non-empty). -/
def natToName (k : Nat) : String :=
  String.mk ('M' :: List.replicate k 'I')

/-- Modelled from the spec: device-path template for generated video outputs
(video_output.rs is missing from src/; §4.4 requires distinct device paths). -/
def devicePath (i : Nat) : String :=
  String.mk ('D' :: List.replicate i 'I')

/-- Modelled from the spec: GSM-part encoding (gsm_id.rs is missing from src/). -/
def natToGsm (k : Nat) : String :=
  String.mk ('G' :: List.replicate k 'A')

/-- `MonitorNameFuzzer` (monitor_name.rs, missing from src/): owns its seeded
generator (monitor.rs line 34). -/
structure MonitorNameFuzzer where
  rand : StdRng
deriving DecidableEq

/-- `DeviceIdFuzzer` (device_id.rs, missing from src/): owns its seeded
generator (monitor.rs line 35). -/
structure DeviceIdFuzzer where
  rand : StdRng
deriving DecidableEq

/-- `ConfigModeInfoIdFuzzer` (config_mod_info_id.rs, missing from src/): owns
its seeded generator (monitor.rs line 36). -/
structure ConfigModeInfoIdFuzzer where
  rand : StdRng
deriving DecidableEq

/-- `GsmIdFuzzer` (gsm_id.rs, missing from src/): owns its seeded generator
(monitor.rs line 37). -/
structure GsmIdFuzzer where
  rand : StdRng
deriving DecidableEq

/-- Modelled from the spec: `MonitorNameFuzzer::generate_several`
(monitor_name.rs, missing from src/; §4.1: `n` pairwise-distinct values, §3:
names non-empty and disjoint from any caller-specified forbidden set).  One
draw fixes a base past the longest forbidden name; the `n` names are then an
injective function of the index, so they are distinct and, being longer than
every forbidden name, avoid the forbidden set. -/
def MonitorNameFuzzer.generate_several (E : Nat → Nat → Nat) (f : MonitorNameFuzzer)
    (n : Nat) (forbidden_names : List String) : List String × MonitorNameFuzzer :=
  let base := (f.rand.next_u64 E).1 + (forbidden_names.map String.length).foldr Nat.max 0 + 1
  (((List.range n).map fun i => natToName (base + i)), ⟨(f.rand.next_u64 E).2⟩)

/-- Modelled from the spec: `ConfigModeInfoIdFuzzer::generate_several`
(config_mod_info_id.rs, missing from src/; §4.1): a batch of `n` ids. -/
def ConfigModeInfoIdFuzzer.generate_several (E : Nat → Nat → Nat)
    (f : ConfigModeInfoIdFuzzer) (n : Nat) : List Nat × ConfigModeInfoIdFuzzer :=
  (((List.range n).map fun i => ((f.rand.next_u64 E).1 + i) % 2 ^ 32),
    ⟨(f.rand.next_u64 E).2⟩)

/-- Modelled from the spec: `GsmIdFuzzer::generate_several` (gsm_id.rs, missing
from src/; §4.1): a batch of `n` pairwise-distinct GSM parts. -/
def GsmIdFuzzer.generate_several (E : Nat → Nat → Nat) (f : GsmIdFuzzer) (n : Nat) :
    List String × GsmIdFuzzer :=
  (((List.range n).map fun i => natToGsm ((f.rand.next_u64 E).1 + i)),
    ⟨(f.rand.next_u64 E).2⟩)

/-- Modelled from the spec: `DeviceIdFuzzer::generate_from_parts` (device_id.rs,
missing from src/; §4.3: the device id is a deterministic concatenation of the
GSM part, the three caller-supplied common parts, and the config-mode-info id;
§9 open question: the exact template is opaque but internally consistent). -/
def DeviceIdFuzzer.generate_from_parts (_f : DeviceIdFuzzer) (gsm : String)
    (p1 : Int) (p2 : String) (p3 : Int) (p4 : String) (cmii : Nat) : String :=
  gsm ++ "#" ++ toString p1 ++ "#" ++ p2 ++ "#" ++ toString p3 ++ "#" ++ p4
    ++ "#" ++ toString cmii

/-- `MonitorFuzzer` (monitor.rs lines 22–27). -/
structure MonitorFuzzer where
  monitor_name_fuzzer : MonitorNameFuzzer
  device_id_fuzzer : DeviceIdFuzzer
  config_mode_info_id_fuzzer : ConfigModeInfoIdFuzzer
  gsm_id_fuzzer : GsmIdFuzzer
deriving DecidableEq

/-- `MonitorFuzzer::new` (monitor.rs lines 30–39): one value is drawn from the
received generator and the four sub-fuzzers are all seeded from that same
value. -/
def MonitorFuzzer.new (E : Nat → Nat → Nat) (rand : StdRng) : MonitorFuzzer :=
  let seed := (rand.next_u64 E).1
  ⟨⟨StdRng.seed_from_u64 seed⟩, ⟨StdRng.seed_from_u64 seed⟩,
    ⟨StdRng.seed_from_u64 seed⟩, ⟨StdRng.seed_from_u64 seed⟩⟩

/-- `MonitorFuzzer::generate_several` (monitor.rs lines 41–86), with state
threading for the sub-generators.  The `forbidden_names` parameter is routed to
the name generator; its plumbing lives in files missing from src/ and is
modelled from the spec (§4.5: "optionally excluding caller-given forbidden
names"); the src body is otherwise followed verbatim. -/
def MonitorFuzzer.generate_several (E : Nat → Nat → Nat) (f : MonitorFuzzer)
    (monitors_id_common_part_1 : Int) (monitors_id_common_part_2 : String)
    (monitors_id_common_part_3 : Int) (monitors_id_common_part_4 : String)
    (has_an_internal_display : Bool)
    (positioned_resolutions : List FuzzedMonitorPositionedResolution)
    (forbidden_names : List String) : List FuzzedMonitor × MonitorFuzzer :=
  let n_monitor := positioned_resolutions.length
  let names := (f.monitor_name_fuzzer.generate_several E n_monitor forbidden_names).1
  let nameF := (f.monitor_name_fuzzer.generate_several E n_monitor forbidden_names).2
  let config_mode_info_ids := (f.config_mode_info_id_fuzzer.generate_several E n_monitor).1
  let cmiiF := (f.config_mode_info_id_fuzzer.generate_several E n_monitor).2
  let monitor_id_gsm_parts := (f.gsm_id_fuzzer.generate_several E n_monitor).1
  let gsmF := (f.gsm_id_fuzzer.generate_several E n_monitor).2
  (((List.range n_monitor).map fun monitor_index =>
    let pr := positioned_resolutions.getD monitor_index default
    let position := pr.position
    let resolution := pr.resolution
    let primary := position.is_positioned_at_origin
    let name := if has_an_internal_display && primary then "" else names.getD monitor_index ""
    let config_mode_info_id := config_mode_info_ids.getD monitor_index 0
    let monitor_id_gsm_part := monitor_id_gsm_parts.getD monitor_index ""
    let device_id := f.device_id_fuzzer.generate_from_parts monitor_id_gsm_part
      monitors_id_common_part_1 monitors_id_common_part_2
      monitors_id_common_part_3 monitors_id_common_part_4 config_mode_info_id
    { name := name, primary := primary, config_mode_info_id := config_mode_info_id,
      device_id := device_id, resolution := resolution, position := position }),
   { f with monitor_name_fuzzer := nameF, config_mode_info_id_fuzzer := cmiiF,
            gsm_id_fuzzer := gsmF })

/-- Modelled from the spec: the Position/Resolution generator of §4.2
(position.rs and resolution.rs are missing from src/): `n` pairs, exactly one
positioned at the origin (the randomly drawn index `v % n`), the others at
pairwise distinct non-origin anchors, with a plausible fixed resolution. -/
def generatePositionedResolutions (E : Nat → Nat → Nat) (r : StdRng) (n : Nat) :
    List FuzzedMonitorPositionedResolution × StdRng :=
  let j := (r.next_u64 E).1 % n
  (((List.range n).map fun i =>
    { position := if i = j then ⟨0, 0⟩ else ⟨(Int.ofNat i + 1) * 1920, 0⟩,
      resolution := ⟨1920, 1080⟩ }), (r.next_u64 E).2)

/-- Modelled from the spec: the monitor-generation entry point invoked by
`ComputerFuzzer::with_a_range_of_monitors` (computer.rs line 176 calls a
`MonitorFuzzer::generate_several` overload whose file is not the monitor.rs
under src/): per §4.5 step 2 it generates positions via §4.2 and then builds
the monitors via §4.3 (the src `generate_several` above), with fixed common
device-id parts.  The exclusion contract for forbidden device ids noted in the
spec is not modelled (no claim depends on it). -/
def MonitorFuzzer.generate_several_with_constraints (E : Nat → Nat → Nat)
    (f : MonitorFuzzer) (n : Nat) (has_an_internal_display : Bool)
    (forbidden_names : List String) (_forbidden_device_ids : List String) :
    List FuzzedMonitor × MonitorFuzzer :=
  let prs := (generatePositionedResolutions E f.gsm_id_fuzzer.rand n).1
  let posR := (generatePositionedResolutions E f.gsm_id_fuzzer.rand n).2
  let f1 := { f with gsm_id_fuzzer := ⟨posR⟩ }
  f1.generate_several E 4 "ACPI" 3 "PCI" has_an_internal_display prs forbidden_names

/-- Modelled from the spec: `VideoOutputFuzzer::generate_several`
(video_output.rs, missing from src/; §4.4): `n` unplugged slots with distinct
device paths drawn from a template. -/
def VideoOutputFuzzer.generate_several (n : Nat) : List FuzzedVideoOutput :=
  (List.range n).map fun i => ⟨devicePath i, none⟩

/-- One step of spec §4.5 step 3 (computer.rs lines 199–207): plug the monitor
of the pair into the video output at the pair's index. -/
def plugPair (os : List FuzzedVideoOutput) (p : Nat × FuzzedMonitor) :
    List FuzzedVideoOutput :=
  match os[p.1]? with
  | some vo => os.set p.1 (vo.plug_monitor p.2)
  | none => os

/-- The assignment loop of computer.rs lines 199–207: for each
`(monitor_index, video_output_index)` in the enumerated index list, plug
monitor `monitor_index` into output `video_output_index`. -/
def plugAll (os : List FuzzedVideoOutput) (monitors : List FuzzedMonitor)
    (idxs : List Nat) : List FuzzedVideoOutput :=
  (idxs.zip monitors).foldl plugPair os

/-- Modelled from the spec: `FuzzedWin32` fake device-API state (win32.rs,
missing from src/): it stores the five arguments of `FuzzedWin32::new`
(computer.rs lines 106–112); the `HashMap` is modelled as an association list. -/
structure FuzzedWin32 where
  video_outputs : List FuzzedVideoOutput
  change_display_settings_error_on_commit : Option DISP_CHANGE
  change_display_settings_error_by_monitor : List (String × DISP_CHANGE)
  getting_primary_monitor_name_fails : Bool
  querying_the_display_config_of_the_primary_monitor_fails : Bool
deriving DecidableEq

/-- `FuzzedWin32::new` (signature visible at computer.rs lines 106–112). -/
def FuzzedWin32.new (vos : List FuzzedVideoOutput) (commit_err : Option DISP_CHANGE)
    (by_monitor : List (String × DISP_CHANGE)) (get_primary_fails : Bool)
    (query_fails : Bool) : FuzzedWin32 :=
  ⟨vos, commit_err, by_monitor, get_primary_fails, query_fails⟩

/-- `HashMap::insert` modelled on an association list: replace the binding if
the key is present, otherwise append it. -/
def mapInsert (m : List (String × DISP_CHANGE)) (k : String) (v : DISP_CHANGE) :
    List (String × DISP_CHANGE) :=
  if m.any fun p => p.1 == k then
    m.map fun p => if p.1 == k then (k, v) else p
  else m ++ [(k, v)]

/-- `FuzzedComputer` (computer.rs lines 17–22). -/
structure FuzzedComputer where
  win32 : FuzzedWin32
  primary_monitor : String
  secondary_monitor : String
  monitors : List String
deriving DecidableEq

/-- `ComputerFuzzer` (computer.rs lines 24–32). -/
structure ComputerFuzzer where
  rand : StdRng
  video_outputs : List FuzzedVideoOutput
  change_display_settings_error_on_commit : Option DISP_CHANGE
  change_display_settings_error_by_monitor : List (String × DISP_CHANGE)
  has_an_internal_display : Bool
  getting_primary_monitor_name_fails : Bool
  querying_the_display_config_of_the_primary_monitor_fails : Bool
deriving DecidableEq

/-- `ComputerFuzzer::MAX_VIDEO_OUTPUTS` (computer.rs line 37). -/
def ComputerFuzzer.MAX_VIDEO_OUTPUTS : Nat := 162

/-- `ComputerFuzzer::new` (computer.rs lines 39–49). -/
def ComputerFuzzer.new (rand : StdRng) : ComputerFuzzer :=
  ⟨rand, [], none, [], false, false, false⟩

/-- The plugged device paths (the `possible_devices_paths` filter of
computer.rs lines 76–83). -/
def pluggedPaths (vos : List FuzzedVideoOutput) : List String :=
  vos.filterMap fun vo =>
    match vo.monitor with
    | some _ => some vo.device_name
    | none => none

/-- The plugged monitors of a video-output list, in list order. -/
def pluggedMonitors (vos : List FuzzedVideoOutput) : List FuzzedMonitor :=
  vos.filterMap fun vo => vo.monitor

/-- The random draws opening `ComputerFuzzer::with_a_range_of_monitors`
(computer.rs lines 171–174): seed a `MonitorFuzzer` from a fresh draw, then
draw `n_video_output` from `[min, max]` and `n_monitor` from
`[min, n_video_output]`.  Returns `(n_video_output, n_monitor, rng, fuzzer)`. -/
def ComputerFuzzer.draw_counts (E : Nat → Nat → Nat) (self : ComputerFuzzer)
    (min max : Nat) : Option (Nat × Nat × StdRng × MonitorFuzzer) :=
  let u := (self.rand.next_u64 E).1
  let rand1 := (self.rand.next_u64 E).2
  let monitor_fuzzer := MonitorFuzzer.new E (StdRng.seed_from_u64 u)
  (rand1.gen_range_incl E min max).bind fun p =>
    ((p.2.gen_range_incl E min p.1).map fun q =>
      (p.1, q.1, q.2, monitor_fuzzer))

/-- The monitor batch generated by `ComputerFuzzer::with_a_range_of_monitors`
(computer.rs lines 176–181), together with the counts and the generator state
after the draws. -/
def ComputerFuzzer.monitor_batch (E : Nat → Nat → Nat) (self : ComputerFuzzer)
    (min max : Nat) (forbidden_monitor_names forbidden_device_ids : List String) :
    Option (List FuzzedMonitor × Nat × Nat × StdRng) :=
  (self.draw_counts E min max).map fun t =>
    ((t.2.2.2.generate_several_with_constraints E t.2.1
        self.has_an_internal_display forbidden_monitor_names forbidden_device_ids).1,
      t.1, t.2.1, t.2.2.1)

/-- `ComputerFuzzer::with_a_range_of_monitors` (computer.rs lines 164–212):
draw the counts, generate the monitor batch, assert exactly one primary
(`assert_eq!`, modelled as `none` on failure), generate the video outputs,
choose `n_monitor` output indices without replacement, sort them ascending, and
plug monitor `i` into the `i`-th chosen output. -/
def ComputerFuzzer.with_a_range_of_monitors (E : Nat → Nat → Nat)
    (self : ComputerFuzzer) (min max : Nat)
    (forbidden_monitor_names forbidden_device_ids : List String) :
    Option ComputerFuzzer :=
  (self.monitor_batch E min max forbidden_monitor_names forbidden_device_ids).bind fun t =>
    if (t.1.filter fun monitor => monitor.primary).length = 1 then
      let video_outputs := VideoOutputFuzzer.generate_several t.2.1
      let sample := sampleWithoutReplacement E t.2.2.2 (List.range t.2.1) t.2.2.1
      let sorted_indexes := sample.1.insertionSort (· ≤ ·)
      some { self with
              rand := sample.2,
              video_outputs := plugAll video_outputs t.1 sorted_indexes }
    else none

/-- `ComputerFuzzer::with_two_monitors_or_more` (computer.rs lines 51–53). -/
def ComputerFuzzer.with_two_monitors_or_more (E : Nat → Nat → Nat)
    (self : ComputerFuzzer) : Option ComputerFuzzer :=
  self.with_a_range_of_monitors E 2 ComputerFuzzer.MAX_VIDEO_OUTPUTS [] []

/-- `ComputerFuzzer::with_n_monitors` (computer.rs lines 55–57). -/
def ComputerFuzzer.with_n_monitors (E : Nat → Nat → Nat) (self : ComputerFuzzer)
    (n_monitor : Nat) : Option ComputerFuzzer :=
  self.with_a_range_of_monitors E n_monitor n_monitor [] []

/-- `ComputerFuzzer::with_an_internal_display_and_at_least_one_more_monitor`
(computer.rs lines 59–62). -/
def ComputerFuzzer.with_an_internal_display_and_at_least_one_more_monitor
    (E : Nat → Nat → Nat) (self : ComputerFuzzer) : Option ComputerFuzzer :=
  ComputerFuzzer.with_two_monitors_or_more E { self with has_an_internal_display := true }

/-- `ComputerFuzzer::for_which_committing_the_display_changes_fails_with`
(computer.rs lines 64–70). -/
def ComputerFuzzer.for_which_committing_the_display_changes_fails_with
    (self : ComputerFuzzer) (e : DISP_CHANGE) : ComputerFuzzer :=
  { self with change_display_settings_error_on_commit := some e }

/-- `ComputerFuzzer::for_which_changing_the_display_settings_fails_for_some_monitors`
(computer.rs lines 72–95): collect the plugged device paths, draw
`n_monitor_on_error` from `[1, count)` (an empty range — fewer than 2 plugged
outputs — panics, modelled as `none`), choose that many paths without
replacement and insert each into the error map with the given code. -/
def ComputerFuzzer.for_which_changing_the_display_settings_fails_for_some_monitors
    (E : Nat → Nat → Nat) (self : ComputerFuzzer) (e : DISP_CHANGE) :
    Option ComputerFuzzer :=
  let possible_devices_paths := pluggedPaths self.video_outputs
  (self.rand.gen_range_excl E 1 possible_devices_paths.length).map fun p =>
    let sample := sampleWithoutReplacement E p.2 possible_devices_paths p.1
    { self with
        rand := sample.2,
        change_display_settings_error_by_monitor :=
          sample.1.foldl (fun m device_path => mapInsert m device_path e)
            self.change_display_settings_error_by_monitor }

/-- `ComputerFuzzer::for_which_getting_the_primary_monitor_fails`
(computer.rs lines 126–130). -/
def ComputerFuzzer.for_which_getting_the_primary_monitor_fails
    (self : ComputerFuzzer) : ComputerFuzzer :=
  { self with getting_primary_monitor_name_fails := true }

/-- `ComputerFuzzer::for_which_querying_the_display_config_of_the_primary_monitor_fails`
(computer.rs lines 132–138). -/
def ComputerFuzzer.for_which_querying_the_display_config_of_the_primary_monitor_fails
    (self : ComputerFuzzer) : ComputerFuzzer :=
  { self with querying_the_display_config_of_the_primary_monitor_fails := true }

/-- `ComputerFuzzer::with_two_monitors_or_more_with_names_different_than`
(computer.rs lines 152–162). -/
def ComputerFuzzer.with_two_monitors_or_more_with_names_different_than
    (E : Nat → Nat → Nat) (self : ComputerFuzzer)
    (forbidden_monitor_names : List String) : Option ComputerFuzzer :=
  self.with_a_range_of_monitors E 2 ComputerFuzzer.MAX_VIDEO_OUTPUTS
    forbidden_monitor_names []

/-- `ComputerFuzzer::with_two_monitors_or_more_with_device_ids_different_than`
(computer.rs lines 140–150). -/
def ComputerFuzzer.with_two_monitors_or_more_with_device_ids_different_than
    (E : Nat → Nat → Nat) (self : ComputerFuzzer)
    (forbidden_device_ids : List String) : Option ComputerFuzzer :=
  self.with_a_range_of_monitors E 2 ComputerFuzzer.MAX_VIDEO_OUTPUTS []
    forbidden_device_ids

/-- `ComputerFuzzer::get_monitor` (computer.rs lines 214–230), as a function of
the video-output list: the name of the first plugged monitor whose `primary`
flag matches, or the sentinel placeholder. -/
def getMonitorFrom (vos : List FuzzedVideoOutput) (primary : Bool) : String :=
  ((vos.filterMap fun video_output =>
    match video_output.monitor with
    | some monitor => if monitor.primary == primary then some monitor.name else none
    | none => none).head?).getD
    (if primary then "<primary>" else "<secondary>")

/-- `ComputerFuzzer::get_monitor` (computer.rs lines 214–230). -/
def ComputerFuzzer.get_monitor (self : ComputerFuzzer) (primary : Bool) : String :=
  getMonitorFrom self.video_outputs primary

/-- `ComputerFuzzer::get_all_monitors` (computer.rs lines 232–240). -/
def ComputerFuzzer.get_all_monitors (self : ComputerFuzzer) : List String :=
  self.video_outputs.filterMap fun video_output =>
    match video_output.monitor with
    | some monitor => some monitor.name
    | none => none

/-- `ComputerFuzzer::build` (computer.rs lines 97–124): resolve the secondary
and primary summary names, `assert_ne!` them (`none` models the panic, which is
an abort, not an error value), assemble the fake Win32 state and the sorted
name list.  `build` takes `&self`: it neither consumes randomness nor mutates
the fuzzer, which the embedding reflects by returning no successor state. -/
def ComputerFuzzer.build (self : ComputerFuzzer) : Option FuzzedComputer :=
  let secondary_monitor := self.get_monitor false
  let primary_monitor := self.get_monitor true
  if secondary_monitor = primary_monitor then none
  else
    let win32 := FuzzedWin32.new self.video_outputs
      self.change_display_settings_error_on_commit
      self.change_display_settings_error_by_monitor
      self.getting_primary_monitor_name_fails
      self.querying_the_display_config_of_the_primary_monitor_fails
    some { win32 := win32, primary_monitor := primary_monitor,
           secondary_monitor := secondary_monitor,
           monitors := self.get_all_monitors.insertionSort (· ≤ ·) }

/-- One public configuration call of the fluent surface (computer.rs). -/
inductive ConfigCall where
  | with_two_monitors_or_more
  | with_n_monitors (n : Nat)
  | with_an_internal_display_and_at_least_one_more_monitor
  | for_which_committing_the_display_changes_fails_with (e : DISP_CHANGE)
  | for_which_changing_the_display_settings_fails_for_some_monitors (e : DISP_CHANGE)
  | for_which_getting_the_primary_monitor_fails
  | for_which_querying_the_display_config_of_the_primary_monitor_fails
  | with_two_monitors_or_more_with_names_different_than (forbidden : List String)
  | with_two_monitors_or_more_with_device_ids_different_than (forbidden : List String)
deriving DecidableEq

/-- Apply one configuration call to the fuzzer state (`none` models a panic). -/
def applyCall (E : Nat → Nat → Nat) (self : ComputerFuzzer) :
    ConfigCall → Option ComputerFuzzer
  | .with_two_monitors_or_more => self.with_two_monitors_or_more E
  | .with_n_monitors n => self.with_n_monitors E n
  | .with_an_internal_display_and_at_least_one_more_monitor =>
      self.with_an_internal_display_and_at_least_one_more_monitor E
  | .for_which_committing_the_display_changes_fails_with e =>
      some (self.for_which_committing_the_display_changes_fails_with e)
  | .for_which_changing_the_display_settings_fails_for_some_monitors e =>
      self.for_which_changing_the_display_settings_fails_for_some_monitors E e
  | .for_which_getting_the_primary_monitor_fails =>
      some self.for_which_getting_the_primary_monitor_fails
  | .for_which_querying_the_display_config_of_the_primary_monitor_fails =>
      some self.for_which_querying_the_display_config_of_the_primary_monitor_fails
  | .with_two_monitors_or_more_with_names_different_than forbidden =>
      self.with_two_monitors_or_more_with_names_different_than E forbidden
  | .with_two_monitors_or_more_with_device_ids_different_than forbidden =>
      self.with_two_monitors_or_more_with_device_ids_different_than E forbidden

/-- Run a sequence of configuration calls on a fuzzer freshly seeded from
`seed` (the test-side entry point: `ComputerFuzzer::new(StdRng::seed_from_u64(seed))`). -/
def runCalls (E : Nat → Nat → Nat) (seed : Nat) (calls : List ConfigCall) :
    Option ComputerFuzzer :=
  calls.foldl (fun os c => os.bind fun s => applyCall E s c)
    (some (ComputerFuzzer.new (StdRng.seed_from_u64 seed)))

/-- Run a sequence of configuration calls from a seed, then `build()`. -/
def runAndBuild (E : Nat → Nat → Nat) (seed : Nat) (calls : List ConfigCall) :
    Option FuzzedComputer :=
  (runCalls E seed calls).bind fun s => s.build

/-- The spec's wording of the summary-name resolution (§4.5 step 5): filter
plugged monitors for the requested role, take the first match, else fall back
to the sentinel placeholder.  Stated independently of `getMonitorFrom` so the
two can be compared. -/
def getMonitorSpec (vos : List FuzzedVideoOutput) (primary : Bool) : String :=
  match (pluggedMonitors vos).find? fun m => m.primary == primary with
  | some m => m.name
  | none => if primary then "<primary>" else "<secondary>"

/-- The reading of spec §4.1/§9 contested by the code: each of the four
sub-generators of `MonitorFuzzer::new` is seeded from its own freshly drawn
value of the parent stream (four successive draws). -/
def FreshlySeededPerSubGenerator (E : Nat → Nat → Nat) (r : StdRng) : Prop :=
  (MonitorFuzzer.new E r).monitor_name_fuzzer.rand
      = StdRng.seed_from_u64 (r.next_u64 E).1 ∧
  (MonitorFuzzer.new E r).device_id_fuzzer.rand
      = StdRng.seed_from_u64 (((r.next_u64 E).2).next_u64 E).1 ∧
  (MonitorFuzzer.new E r).config_mode_info_id_fuzzer.rand
      = StdRng.seed_from_u64 (((((r.next_u64 E).2).next_u64 E).2).next_u64 E).1 ∧
  (MonitorFuzzer.new E r).gsm_id_fuzzer.rand
      = StdRng.seed_from_u64 (((((((r.next_u64 E).2).next_u64 E).2).next_u64 E).2).next_u64 E).1

instance (E : Nat → Nat → Nat) (r : StdRng) :
    Decidable (FreshlySeededPerSubGenerator E r) := by
  unfold FreshlySeededPerSubGenerator
  infer_instance

/-- A concrete executable entropy function for witnesses. -/
def testEntropy : Nat → Nat → Nat :=
  fun s i => s + i + 1

instance : Inhabited ComputerFuzzer :=
  ⟨ComputerFuzzer.new (StdRng.seed_from_u64 0)⟩

instance : Inhabited FuzzedComputer :=
  ⟨⟨⟨[], none, [], false, false⟩, "", "", []⟩⟩

/-- A concrete plugged monitor for witnesses (primary, at the origin). -/
def demoMonitorA : FuzzedMonitor :=
  ⟨natToName 0, true, 1, "IDA", ⟨1920, 1080⟩, ⟨0, 0⟩⟩

/-- A concrete plugged monitor for witnesses (secondary). -/
def demoMonitorB : FuzzedMonitor :=
  ⟨natToName 1, false, 2, "IDB", ⟨1920, 1080⟩, ⟨1920, 0⟩⟩

/-- A concrete fuzzer state with two plugged outputs, for witnesses. -/
def demoState : ComputerFuzzer :=
  ⟨StdRng.seed_from_u64 0,
    [⟨"PATH0", some demoMonitorA⟩, ⟨"PATH1", some demoMonitorB⟩],
    none, [], false, false, false⟩

/-- The computer built from `demoState`. -/
def demoComputer : FuzzedComputer :=
  (demoState.build).getD default

/-- A degenerate state whose primary and secondary monitors share one name. -/
def badState : ComputerFuzzer :=
  ⟨StdRng.seed_from_u64 0,
    [⟨"PATH0", some ⟨"SAME", true, 1, "IDA", ⟨1920, 1080⟩, ⟨0, 0⟩⟩⟩,
      ⟨"PATH1", some ⟨"SAME", false, 2, "IDB", ⟨1920, 1080⟩, ⟨1920, 0⟩⟩⟩],
    none, [], false, false, false⟩

/-- A freshly seeded fuzzer, for witnesses. -/
def freshState : ComputerFuzzer :=
  ComputerFuzzer.new (StdRng.seed_from_u64 0)

/-- The state after requesting exactly two monitors on `freshState`. -/
def rangeResult : ComputerFuzzer :=
  (freshState.with_a_range_of_monitors testEntropy 2 2 [] []).getD default

/-- The state after requesting between two and three monitors on `freshState`. -/
def rangeResultWide : ComputerFuzzer :=
  (freshState.with_a_range_of_monitors testEntropy 2 3 [] []).getD default

/-- The state after injecting per-monitor failures on `demoState`. -/
def failResult : ComputerFuzzer :=
  (demoState.for_which_changing_the_display_settings_fails_for_some_monitors
    testEntropy 5).getD default

/-- The state after one configuration run, for witnesses. -/
def runResult : ComputerFuzzer :=
  (runCalls testEntropy 0 [ConfigCall.with_n_monitors 2]).getD default

instance : Inhabited FuzzedMonitor :=
  ⟨⟨"", false, 0, "", ⟨0, 0⟩, ⟨0, 0⟩⟩⟩

/-- A concrete monitor fuzzer, for witnesses. -/
def demoFuzzer : MonitorFuzzer :=
  MonitorFuzzer.new testEntropy (StdRng.seed_from_u64 0)

/-- Two concrete positioned resolutions, the first at the origin. -/
def demoPrs : List FuzzedMonitorPositionedResolution :=
  [⟨⟨0, 0⟩, ⟨1920, 1080⟩⟩, ⟨⟨1920, 0⟩, ⟨1920, 1080⟩⟩]

/-- A concrete internal-display monitor batch, for witnesses. -/
def demoBatch : List FuzzedMonitor :=
  (demoFuzzer.generate_several testEntropy 4 "ACPI" 3 "PCI" true demoPrs []).1

/-- A concrete sorted sampled index list, for witnesses. -/
def demoIdxs : List Nat :=
  ((sampleWithoutReplacement testEntropy (StdRng.seed_from_u64 0)
    (List.range 3) 2).1.insertionSort (· ≤ ·))

/-- The index of the origin-positioned pair in the modelled position batch. -/
def bridgePrimaryIndex (E : Nat → Nat → Nat) (f : MonitorFuzzer) (n : Nat) : Nat :=
  (f.gsm_id_fuzzer.rand.next_u64 E).1 % n

/-- The base offset of the modelled name batch. -/
def bridgeNameBase (E : Nat → Nat → Nat) (f : MonitorFuzzer)
    (forbidden_names : List String) : Nat :=
  (f.monitor_name_fuzzer.rand.next_u64 E).1
    + (forbidden_names.map String.length).foldr Nat.max 0 + 1

/-- The position assigned to index `i` when the origin index is `j`. -/
def bridgePosition (i j : Nat) : FuzzedMonitorPosition :=
  if i = j then ⟨0, 0⟩ else ⟨(Int.ofNat i + 1) * 1920, 0⟩

/-- Closed form of the `i`-th monitor produced by
`MonitorFuzzer.generate_several_with_constraints`. -/
def bridgeMonitor (E : Nat → Nat → Nat) (f : MonitorFuzzer) (n : Nat)
    (internal : Bool) (forbidden_names : List String) (i : Nat) : FuzzedMonitor :=
  { name := if internal && (bridgePosition i (bridgePrimaryIndex E f n)).is_positioned_at_origin
      then "" else natToName (bridgeNameBase E f forbidden_names + i),
    primary := (bridgePosition i (bridgePrimaryIndex E f n)).is_positioned_at_origin,
    config_mode_info_id := ((f.config_mode_info_id_fuzzer.rand.next_u64 E).1 + i) % 2 ^ 32,
    device_id := f.device_id_fuzzer.generate_from_parts
      (natToGsm (((f.gsm_id_fuzzer.rand.next_u64 E).2.next_u64 E).1 + i)) 4 "ACPI" 3 "PCI"
      (((f.config_mode_info_id_fuzzer.rand.next_u64 E).1 + i) % 2 ^ 32),
    resolution := ⟨1920, 1080⟩,
    position := bridgePosition i (bridgePrimaryIndex E f n) }

/-! ## String lemmas for the modelled identifier generators -/

theorem natToName_injective {a b : Nat} (h : natToName a = natToName b) : a = b := by
  have hd : ('M' :: List.replicate a 'I') = ('M' :: List.replicate b 'I') :=
    congrArg String.data h
  have hlen := congrArg List.length hd
  simpa using hlen

theorem natToName_ne_of_head {k : Nat} {s : String}
    (h : s.data.head? ≠ some 'M') : natToName k ≠ s := by
  intro he
  apply h
  rw [← he]
  rfl

theorem natToName_ne_empty (k : Nat) : natToName k ≠ "" :=
  natToName_ne_of_head (by decide)

theorem natToName_ne_primary_sentinel (k : Nat) : natToName k ≠ "<primary>" :=
  natToName_ne_of_head (by decide)

theorem natToName_ne_secondary_sentinel (k : Nat) : natToName k ≠ "<secondary>" :=
  natToName_ne_of_head (by decide)

/-! ## Sampling-without-replacement lemmas -/

theorem perm_getElem_cons_eraseIdx {α : Type} :
    ∀ (l : List α) (i : Nat) (h : i < l.length),
      l.Perm (l.get ⟨i, h⟩ :: l.eraseIdx i)
  | a :: l, 0, _ => by simp [List.eraseIdx]
  | a :: l, i + 1, h => by
    have hi : i < l.length := by simpa using h
    have ih := perm_getElem_cons_eraseIdx l i hi
    show (a :: l).Perm (l.get ⟨i, hi⟩ :: a :: l.eraseIdx i)
    exact (ih.cons a).trans (List.Perm.swap _ _ _)

theorem sample_zero {α : Type} (E : Nat → Nat → Nat) (r : StdRng) (xs : List α) :
    sampleWithoutReplacement E r xs 0 = ([], r) := rfl

theorem sample_succ_nil {α : Type} (E : Nat → Nat → Nat) (r : StdRng) (k : Nat) :
    sampleWithoutReplacement E r ([] : List α) (k + 1) = ([], r) := rfl

theorem sample_succ_cons {α : Type} (E : Nat → Nat → Nat) (r : StdRng) (y : α)
    (ys : List α) (k : Nat) :
    sampleWithoutReplacement E r (y :: ys) (k + 1) =
      ((y :: ys).get ⟨(r.next_u64 E).1 % (y :: ys).length, Nat.mod_lt _ (Nat.succ_pos _)⟩ ::
        (sampleWithoutReplacement E (r.next_u64 E).2
          ((y :: ys).eraseIdx ((r.next_u64 E).1 % (y :: ys).length)) k).1,
       (sampleWithoutReplacement E (r.next_u64 E).2
          ((y :: ys).eraseIdx ((r.next_u64 E).1 % (y :: ys).length)) k).2) := rfl

theorem sample_length {α : Type} (E : Nat → Nat → Nat) :
    ∀ (k : Nat) (r : StdRng) (xs : List α), k ≤ xs.length →
      (sampleWithoutReplacement E r xs k).1.length = k
  | 0, _, _, _ => rfl
  | k + 1, _, [], h => by simp at h
  | k + 1, r, y :: ys, h => by
    have hlt : (r.next_u64 E).1 % (y :: ys).length < (y :: ys).length :=
      Nat.mod_lt _ (Nat.succ_pos _)
    have hlen : ((y :: ys).eraseIdx ((r.next_u64 E).1 % (y :: ys).length)).length + 1
        = (y :: ys).length := List.length_eraseIdx_add_one hlt
    have hk : k ≤ ((y :: ys).eraseIdx ((r.next_u64 E).1 % (y :: ys).length)).length := by
      have h' : k + 1 ≤ (y :: ys).length := h
      omega
    have ih := sample_length E k (r.next_u64 E).2
      ((y :: ys).eraseIdx ((r.next_u64 E).1 % (y :: ys).length)) hk
    rw [sample_succ_cons, List.length_cons, ih]

theorem sample_subset {α : Type} (E : Nat → Nat → Nat) :
    ∀ (k : Nat) (r : StdRng) (xs : List α) (a : α),
      a ∈ (sampleWithoutReplacement E r xs k).1 → a ∈ xs
  | 0, r, xs, a, h => by simp [sampleWithoutReplacement] at h
  | k + 1, r, [], a, h => by simp [sampleWithoutReplacement] at h
  | k + 1, r, y :: ys, a, h => by
    rw [sample_succ_cons] at h
    simp only [List.mem_cons] at h
    rcases h with h | h
    · exact h ▸ List.get_mem _ _ _
    · have hmem := sample_subset E k (r.next_u64 E).2
        ((y :: ys).eraseIdx ((r.next_u64 E).1 % (y :: ys).length)) a h
      exact (List.eraseIdx_sublist _ _).mem hmem

theorem sample_nodup {α : Type} (E : Nat → Nat → Nat) :
    ∀ (k : Nat) (r : StdRng) (xs : List α), xs.Nodup →
      (sampleWithoutReplacement E r xs k).1.Nodup
  | 0, _, _, _ => List.nodup_nil
  | _ + 1, _, [], _ => List.nodup_nil
  | k + 1, r, y :: ys, hnd => by
    have hlt : (r.next_u64 E).1 % (y :: ys).length < (y :: ys).length :=
      Nat.mod_lt _ (Nat.succ_pos _)
    have hperm : (y :: ys).Perm
        ((y :: ys).get ⟨(r.next_u64 E).1 % (y :: ys).length, hlt⟩ ::
          (y :: ys).eraseIdx ((r.next_u64 E).1 % (y :: ys).length)) :=
      perm_getElem_cons_eraseIdx _ _ hlt
    have hnd' := hperm.nodup hnd
    have hndErase := (List.nodup_cons.mp hnd').2
    have hnotmem := (List.nodup_cons.mp hnd').1
    have ihnd := sample_nodup E k (r.next_u64 E).2
      ((y :: ys).eraseIdx ((r.next_u64 E).1 % (y :: ys).length)) hndErase
    rw [sample_succ_cons]
    refine List.nodup_cons.mpr ⟨fun hmem => hnotmem ?_, ihnd⟩
    exact sample_subset E k _ _ _ hmem

/-! ## Range-draw lemmas -/

theorem gen_range_incl_eq_some {E : Nat → Nat → Nat} {r : StdRng} {lo hi : Nat}
    (h : lo ≤ hi) :
    r.gen_range_incl E lo hi
      = some (lo + (r.next_u64 E).1 % (hi - lo + 1), (r.next_u64 E).2) := by
  simp [StdRng.gen_range_incl, h]

theorem gen_range_incl_bounds {E : Nat → Nat → Nat} {r r' : StdRng} {lo hi v : Nat}
    (h : r.gen_range_incl E lo hi = some (v, r')) : lo ≤ v ∧ v ≤ hi := by
  by_cases hle : lo ≤ hi
  · rw [gen_range_incl_eq_some hle] at h
    have hv : v = lo + (r.next_u64 E).1 % (hi - lo + 1) := by
      have := congrArg (fun o => (o.getD (0, r)).1) h
      simpa using this.symm
    have hmod : (r.next_u64 E).1 % (hi - lo + 1) < hi - lo + 1 :=
      Nat.mod_lt _ (Nat.succ_pos _)
    omega
  · simp [StdRng.gen_range_incl, hle] at h

theorem gen_range_excl_eq_some {E : Nat → Nat → Nat} {r : StdRng} {lo hi : Nat}
    (h : lo < hi) :
    r.gen_range_excl E lo hi
      = some (lo + (r.next_u64 E).1 % (hi - lo), (r.next_u64 E).2) := by
  simp [StdRng.gen_range_excl, h]

theorem gen_range_excl_bounds {E : Nat → Nat → Nat} {r r' : StdRng} {lo hi v : Nat}
    (h : r.gen_range_excl E lo hi = some (v, r')) : lo ≤ v ∧ v < hi := by
  by_cases hlt : lo < hi
  · rw [gen_range_excl_eq_some hlt] at h
    have hv : v = lo + (r.next_u64 E).1 % (hi - lo) := by
      have := congrArg (fun o => (o.getD (0, r)).1) h
      simpa using this.symm
    have hmod : (r.next_u64 E).1 % (hi - lo) < hi - lo := by
      apply Nat.mod_lt
      omega
    omega
  · simp [StdRng.gen_range_excl, hlt] at h

/-! ## Plug-assignment lemmas (spec §4.5 step 3, computer.rs lines 191–207) -/

theorem length_plugPair (os : List FuzzedVideoOutput) (p : Nat × FuzzedMonitor) :
    (plugPair os p).length = os.length := by
  unfold plugPair
  cases h : os[p.1]? <;> simp

theorem length_foldPlug :
    ∀ (pairs : List (Nat × FuzzedMonitor)) (os : List FuzzedVideoOutput),
      (pairs.foldl plugPair os).length = os.length
  | [], _ => rfl
  | p :: rest, os => by
    rw [List.foldl_cons, length_foldPlug rest, length_plugPair]

theorem plugPair_getElem?_self (os : List FuzzedVideoOutput) (i : Nat)
    (m : FuzzedMonitor) :
    (plugPair os (i, m))[i]? = (os[i]?).map fun vo => vo.plug_monitor m := by
  unfold plugPair
  cases h : os[i]? with
  | none => simp [h]
  | some vo =>
    have hi : i < os.length := by
      by_contra hcon
      rw [List.getElem?_eq_none (by omega)] at h
      exact Option.noConfusion h
    simp [h, List.getElem?_set_self hi]

theorem plugPair_getElem?_ne (os : List FuzzedVideoOutput) (i j : Nat)
    (m : FuzzedMonitor) (hne : i ≠ j) :
    (plugPair os (i, m))[j]? = os[j]? := by
  unfold plugPair
  cases h : os[i]? with
  | none => rfl
  | some vo => simp [List.getElem?_set_ne hne]

theorem foldPlug_getElem? :
    ∀ (pairs : List (Nat × FuzzedMonitor)) (os : List FuzzedVideoOutput) (j : Nat),
      (pairs.map Prod.fst).Nodup →
      (pairs.foldl plugPair os)[j]? =
        match pairs.find? fun p => p.1 == j with
        | some p => (os[j]?).map fun vo => vo.plug_monitor p.2
        | none => os[j]?
  | [], os, j, _ => rfl
  | (i, m) :: rest, os, j, hnd => by
    have hnd' : (rest.map Prod.fst).Nodup := (List.nodup_cons.mp hnd).2
    have hnotmem : i ∉ rest.map Prod.fst := (List.nodup_cons.mp hnd).1
    rw [List.foldl_cons]
    rw [foldPlug_getElem? rest (plugPair os (i, m)) j hnd']
    by_cases hij : i = j
    · subst hij
      have hfind : rest.find? (fun p => p.1 == i) = none := by
        rw [List.find?_eq_none]
        intro p hp hbeq
        exact hnotmem (List.mem_map.mpr ⟨p, hp, by simpa using hbeq⟩)
      rw [hfind]
      have hhead : List.find? (fun p => p.1 == i) ((i, m) :: rest) = some (i, m) := by
        simp [List.find?]
      rw [hhead, plugPair_getElem?_self]
    · have hhead : List.find? (fun p => p.1 == j) ((i, m) :: rest)
          = List.find? (fun p => p.1 == j) rest := by
        have hbeq : (i == j) = false := by simpa using hij
        simp [List.find?, hbeq]
      rw [hhead, plugPair_getElem?_ne os i j m hij]

theorem filterMap_monitor_none :
    ∀ (os : List FuzzedVideoOutput), (∀ vo ∈ os, vo.monitor = none) →
      (os.filterMap fun vo => vo.monitor) = []
  | [], _ => rfl
  | vo :: os, h => by
    have h0 : vo.monitor = none := h vo (List.mem_cons_self _ _)
    have ih := filterMap_monitor_none os fun v hv => h v (List.mem_cons_of_mem _ hv)
    simp [List.filterMap_cons, h0, ih]

theorem foldPlug_cons_shift :
    ∀ (pairs : List (Nat × FuzzedMonitor)) (o : FuzzedVideoOutput)
      (os : List FuzzedVideoOutput), (∀ p ∈ pairs, 1 ≤ p.1) →
      pairs.foldl plugPair (o :: os)
        = o :: (pairs.map fun p => (p.1 - 1, p.2)).foldl plugPair os
  | [], _, _, _ => rfl
  | (i, m) :: rest, o, os, h => by
    have h1 : 1 ≤ i := h (i, m) (List.mem_cons_self _ _)
    obtain ⟨i0, rfl⟩ : ∃ i0, i = i0 + 1 := ⟨i - 1, by omega⟩
    have hstep : plugPair (o :: os) (i0 + 1, m) = o :: plugPair os (i0, m) := by
      unfold plugPair
      cases hh : os[i0]? with
      | none => simp [List.getElem?_cons_succ, hh]
      | some vo => simp [List.getElem?_cons_succ, hh]
    rw [List.foldl_cons, hstep, List.map_cons, List.foldl_cons]
    have hpair : ((i0 + 1 - 1 : Nat), m) = (i0, m) := by simp
    rw [hpair]
    exact foldPlug_cons_shift rest o (plugPair os (i0, m))
      fun p hp => h p (List.mem_cons_of_mem _ hp)

theorem filterMap_foldPlug :
    ∀ (os : List FuzzedVideoOutput) (idxs : List Nat) (ms : List FuzzedMonitor),
      idxs.Pairwise (· < ·) →
      idxs.length = ms.length →
      (∀ i ∈ idxs, i < os.length) →
      (∀ vo ∈ os, vo.monitor = none) →
      ((idxs.zip ms).foldl plugPair os).filterMap (fun vo => vo.monitor) = ms
  | [], idxs, ms, _, hlen, hbound, _ => by
    cases idxs with
    | nil =>
      cases ms with
      | nil => rfl
      | cons m ms => exact absurd hlen (by simp)
    | cons i idxs =>
      exact absurd (hbound i (List.mem_cons_self _ _)) (by simp)
  | o :: os, [], ms, _, hlen, _, hnone => by
    cases ms with
    | nil => exact filterMap_monitor_none _ hnone
    | cons m ms => exact absurd hlen (by simp)
  | o :: os, i :: idxs, [], _, hlen, _, _ => absurd hlen (by simp)
  | o :: os, 0 :: idxs, m :: ms, hpw, hlen, hbound, hnone => by
    have hpos : ∀ x ∈ idxs, 0 < x := fun x hx => (List.pairwise_cons.mp hpw).1 x hx
    have hpw' : idxs.Pairwise (· < ·) := (List.pairwise_cons.mp hpw).2
    have hzip : ∀ p ∈ idxs.zip ms, 1 ≤ p.1 := by
      intro p hp
      have hfst : p.1 ∈ idxs := (List.of_mem_zip hp).1
      exact hpos p.1 hfst
    have hstep : plugPair (o :: os) (0, m) = o.plug_monitor m :: os := by
      unfold plugPair
      simp
    rw [List.zip_cons_cons, List.foldl_cons, hstep, foldPlug_cons_shift _ _ _ hzip]
    have hzipmap : (idxs.zip ms).map (fun p => (p.1 - 1, p.2))
        = (idxs.map fun x => x - 1).zip ms := by
      rw [List.zip_map_left]
      rfl
    rw [hzipmap]
    have hpw'' : (idxs.map fun x => x - 1).Pairwise (· < ·) := by
      rw [List.pairwise_map]
      exact hpw'.imp_of_mem fun ha hb hlt => by
        have := hpos _ ha
        omega
    have hlen' : (idxs.map fun x => x - 1).length = ms.length := by
      simpa using Nat.succ_injective (by simpa using hlen)
    have hbound' : ∀ i ∈ idxs.map fun x => x - 1, i < os.length := by
      intro i hi
      obtain ⟨x, hx, rfl⟩ := List.mem_map.mp hi
      have hxb : x < (o :: os).length := hbound x (List.mem_cons_of_mem _ hx)
      have hx1 := hpos x hx
      simp only [List.length_cons] at hxb
      omega
    have hnone' : ∀ vo ∈ os, vo.monitor = none :=
      fun vo hvo => hnone vo (List.mem_cons_of_mem _ hvo)
    have ih := filterMap_foldPlug os (idxs.map fun x => x - 1) ms hpw'' hlen' hbound' hnone'
    simp [List.filterMap_cons, FuzzedVideoOutput.plug_monitor, ih]
  | o :: os, (i0 + 1) :: idxs, m :: ms, hpw, hlen, hbound, hnone => by
    have hpos : ∀ x ∈ idxs, i0 + 1 < x := fun x hx => (List.pairwise_cons.mp hpw).1 x hx
    have hzip : ∀ p ∈ ((i0 + 1) :: idxs).zip (m :: ms), 1 ≤ p.1 := by
      intro p hp
      rw [List.zip_cons_cons, List.mem_cons] at hp
      rcases hp with hp | hp
      · subst hp; omega
      · have hfst : p.1 ∈ idxs := (List.of_mem_zip hp).1
        have := hpos p.1 hfst
        omega
    rw [foldPlug_cons_shift _ _ _ hzip]
    have hzipmap : (((i0 + 1) :: idxs).zip (m :: ms)).map (fun p => (p.1 - 1, p.2))
        = (((i0 + 1) :: idxs).map fun x => x - 1).zip (m :: ms) := by
      rw [List.zip_map_left]
      rfl
    rw [hzipmap]
    have hpw'' : (((i0 + 1) :: idxs).map fun x => x - 1).Pairwise (· < ·) := by
      rw [List.pairwise_map]
      exact hpw.imp_of_mem fun ha hb hlt => by
        rcases List.mem_cons.mp ha with h | h
        · omega
        · have := hpos _ h
          omega
    have hlen' : (((i0 + 1) :: idxs).map fun x => x - 1).length = (m :: ms).length := by
      simpa using hlen
    have hbound' : ∀ i ∈ ((i0 + 1) :: idxs).map fun x => x - 1, i < os.length := by
      intro i hi
      obtain ⟨x, hx, rfl⟩ := List.mem_map.mp hi
      have hxb : x < (o :: os).length := hbound x hx
      have hx1 : 1 ≤ x := by
        rcases List.mem_cons.mp hx with h | h
        · omega
        · have := hpos _ h
          omega
      simp only [List.length_cons] at hxb
      omega
    have hnone' : ∀ vo ∈ os, vo.monitor = none :=
      fun vo hvo => hnone vo (List.mem_cons_of_mem _ hvo)
    have ih := filterMap_foldPlug os (((i0 + 1) :: idxs).map fun x => x - 1) (m :: ms)
      hpw'' hlen' hbound' hnone'
    have h0 : o.monitor = none := hnone o (List.mem_cons_self _ _)
    simp only [List.map_cons, Nat.add_sub_cancel, List.zip_cons_cons, List.foldl_cons] at ih
    simp [List.filterMap_cons, h0, ih]

/-! ## The generated monitor batch in closed form -/

theorem getD_map_range {β : Type} (g : Nat → β) (n i : Nat) (d : β) (h : i < n) :
    ((List.range n).map g).getD i d = g i := by
  rw [List.getD_eq_getElem?_getD, List.getElem?_map, List.getElem?_range h]
  rfl

theorem bridge_batch_eq (E : Nat → Nat → Nat) (f : MonitorFuzzer) (n : Nat)
    (internal : Bool) (fn fd : List String) :
    (f.generate_several_with_constraints E n internal fn fd).1
      = (List.range n).map (bridgeMonitor E f n internal fn) := by
  unfold MonitorFuzzer.generate_several_with_constraints MonitorFuzzer.generate_several
    generatePositionedResolutions MonitorNameFuzzer.generate_several
    ConfigModeInfoIdFuzzer.generate_several GsmIdFuzzer.generate_several
  simp only [List.length_map, List.length_range]
  apply List.map_congr_left
  intro i hi
  have hin : i < n := List.mem_range.mp hi
  rw [getD_map_range _ _ _ _ hin, getD_map_range _ _ _ _ hin,
    getD_map_range _ _ _ _ hin, getD_map_range _ _ _ _ hin]
  rfl

theorem bridgePosition_origin_iff (i j : Nat) :
    (bridgePosition i j).is_positioned_at_origin = true ↔ i = j := by
  unfold bridgePosition FuzzedMonitorPosition.is_positioned_at_origin
  by_cases h : i = j
  · simp [h]
  · have hne : (Int.ofNat i + 1) * 1920 ≠ 0 := by
      have h1 : (0 : Int) < Int.ofNat i + 1 := by
        have h0 : (0 : Int) ≤ Int.ofNat i := Int.ofNat_nonneg i
        omega
      exact (mul_pos h1 (by norm_num)).ne'
    simp only [if_neg h]
    constructor
    · intro hc
      simp only [Bool.and_eq_true, beq_iff_eq] at hc
      exact absurd hc.1 hne
    · intro hc
      exact absurd hc h

theorem bridgeMonitor_primary_iff (E : Nat → Nat → Nat) (f : MonitorFuzzer) (n : Nat)
    (internal : Bool) (fn : List String) (i : Nat) :
    (bridgeMonitor E f n internal fn i).primary = true ↔ i = bridgePrimaryIndex E f n :=
  bridgePosition_origin_iff i (bridgePrimaryIndex E f n)

theorem bridgeMonitor_position_iff (E : Nat → Nat → Nat) (f : MonitorFuzzer) (n : Nat)
    (internal : Bool) (fn : List String) (i : Nat) :
    (bridgeMonitor E f n internal fn i).position = (⟨0, 0⟩ : FuzzedMonitorPosition)
      ↔ i = bridgePrimaryIndex E f n := by
  show bridgePosition i (bridgePrimaryIndex E f n) = (⟨0, 0⟩ : FuzzedMonitorPosition) ↔ _
  unfold bridgePosition
  by_cases h : i = bridgePrimaryIndex E f n
  · simp [h]
  · have hne : (Int.ofNat i + 1) * 1920 ≠ 0 := by
      have h1 : (0 : Int) < Int.ofNat i + 1 := by
        have h0 : (0 : Int) ≤ Int.ofNat i := Int.ofNat_nonneg i
        omega
      exact (mul_pos h1 (by norm_num)).ne'
    simp only [if_neg h]
    constructor
    · intro hcon
      exact absurd (congrArg FuzzedMonitorPosition.x hcon) hne
    · intro hcon
      exact absurd hcon h

theorem bridgeMonitor_name (E : Nat → Nat → Nat) (f : MonitorFuzzer) (n : Nat)
    (internal : Bool) (fn : List String) (i : Nat) :
    (bridgeMonitor E f n internal fn i).name
      = if internal && decide (i = bridgePrimaryIndex E f n) then ""
        else natToName (bridgeNameBase E f fn + i) := by
  show (if internal && (bridgePosition i (bridgePrimaryIndex E f n)).is_positioned_at_origin
      then "" else natToName (bridgeNameBase E f fn + i)) = _
  by_cases h : i = bridgePrimaryIndex E f n
  · have : (bridgePosition i (bridgePrimaryIndex E f n)).is_positioned_at_origin = true :=
      (bridgePosition_origin_iff _ _).mpr h
    rw [this]
    simp [h]
  · have : (bridgePosition i (bridgePrimaryIndex E f n)).is_positioned_at_origin = false := by
      rw [← Bool.not_eq_true]
      exact fun hc => h ((bridgePosition_origin_iff _ _).mp hc)
    rw [this]
    simp [h]

theorem batch_length (E : Nat → Nat → Nat) (f : MonitorFuzzer) (n : Nat)
    (internal : Bool) (fn fd : List String) :
    (f.generate_several_with_constraints E n internal fn fd).1.length = n := by
  rw [bridge_batch_eq]
  simp

theorem batch_filter_primary (E : Nat → Nat → Nat) (f : MonitorFuzzer) (n : Nat)
    (internal : Bool) (fn fd : List String) (hn : 0 < n) :
    ((f.generate_several_with_constraints E n internal fn fd).1.filter
      fun m => m.primary).length = 1 := by
  rw [bridge_batch_eq, ← List.countP_eq_length_filter, List.countP_map]
  have hj : bridgePrimaryIndex E f n < n := Nat.mod_lt _ hn
  have hcong : (List.range n).countP
        ((fun m : FuzzedMonitor => m.primary) ∘ bridgeMonitor E f n internal fn)
      = (List.range n).countP fun i => i == bridgePrimaryIndex E f n := by
    apply List.countP_congr
    intro i _
    simp only [Function.comp_apply, beq_iff_eq]
    exact bridgeMonitor_primary_iff E f n internal fn i
  rw [hcong]
  have : (List.range n).countP (fun i => i == bridgePrimaryIndex E f n)
      = (List.range n).count (bridgePrimaryIndex E f n) := rfl
  rw [this]
  exact List.count_eq_one_of_mem (List.nodup_range n) (List.mem_range.mpr hj)

theorem batch_mem_primary_iff_origin {E : Nat → Nat → Nat} {f : MonitorFuzzer}
    {n : Nat} {internal : Bool} {fn fd : List String} {m : FuzzedMonitor}
    (hm : m ∈ (f.generate_several_with_constraints E n internal fn fd).1) :
    m.primary = true ↔ m.position = (⟨0, 0⟩ : FuzzedMonitorPosition) := by
  rw [bridge_batch_eq] at hm
  obtain ⟨i, _, rfl⟩ := List.mem_map.mp hm
  rw [bridgeMonitor_primary_iff, bridgeMonitor_position_iff]

/-! ## Video-output generator lemmas -/

theorem length_video_outputs (n : Nat) :
    (VideoOutputFuzzer.generate_several n).length = n := by
  simp [VideoOutputFuzzer.generate_several]

theorem video_outputs_unplugged (n : Nat) :
    ∀ vo ∈ VideoOutputFuzzer.generate_several n, vo.monitor = none := by
  intro vo hvo
  obtain ⟨i, _, rfl⟩ := List.mem_map.mp hvo
  rfl

/-! ## Inversion of the draw pipeline -/

theorem draw_counts_inversion {E : Nat → Nat → Nat} {self : ComputerFuzzer}
    {min max nvo nm : Nat} {rand3 : StdRng} {mf : MonitorFuzzer}
    (h : self.draw_counts E min max = some (nvo, nm, rand3, mf)) :
    min ≤ nvo ∧ nvo ≤ max ∧ min ≤ nm ∧ nm ≤ nvo ∧
      mf = MonitorFuzzer.new E (StdRng.seed_from_u64 (self.rand.next_u64 E).1) := by
  unfold ComputerFuzzer.draw_counts at h
  dsimp only at h
  cases hg1 : (self.rand.next_u64 E).2.gen_range_incl E min max with
  | none => rw [hg1] at h; exact absurd h (by simp)
  | some p =>
    rw [hg1] at h
    cases hg2 : p.2.gen_range_incl E min p.1 with
    | none => rw [Option.some_bind] at h; rw [hg2] at h; exact absurd h (by simp)
    | some q =>
      rw [Option.some_bind] at h
      rw [hg2, Option.map_some'] at h
      have heq := Option.some.inj h
      have h1 : p.1 = nvo := congrArg (fun t => t.1) heq
      have h2 : q.1 = nm := congrArg (fun t => t.2.1) heq
      have h3 : mf = MonitorFuzzer.new E (StdRng.seed_from_u64 (self.rand.next_u64 E).1) :=
        (congrArg (fun t => t.2.2.2) heq).symm
      obtain ⟨hb1, hb2⟩ := gen_range_incl_bounds hg1
      obtain ⟨hb3, hb4⟩ := gen_range_incl_bounds hg2
      exact ⟨by omega, by omega, by omega, by omega, h3⟩

theorem with_a_range_inversion {E : Nat → Nat → Nat} {self s' : ComputerFuzzer}
    {min max : Nat} {fn fd : List String}
    (h : self.with_a_range_of_monitors E min max fn fd = some s') :
    ∃ nvo nm rand3 mf,
      self.draw_counts E min max = some (nvo, nm, rand3, mf) ∧
      ((mf.generate_several_with_constraints E nm self.has_an_internal_display fn fd).1.filter
        fun m => m.primary).length = 1 ∧
      s' = { self with
        rand := (sampleWithoutReplacement E rand3 (List.range nvo) nm).2,
        video_outputs := plugAll (VideoOutputFuzzer.generate_several nvo)
          (mf.generate_several_with_constraints E nm self.has_an_internal_display fn fd).1
          ((sampleWithoutReplacement E rand3 (List.range nvo) nm).1.insertionSort (· ≤ ·)) } := by
  unfold ComputerFuzzer.with_a_range_of_monitors ComputerFuzzer.monitor_batch at h
  cases hdc : self.draw_counts E min max with
  | none => rw [hdc] at h; exact absurd h (by simp)
  | some t =>
    obtain ⟨nvo, nm, rand3, mf⟩ := t
    rw [hdc, Option.map_some', Option.some_bind] at h
    dsimp only at h
    by_cases hone : ((mf.generate_several_with_constraints E nm
        self.has_an_internal_display fn fd).1.filter fun m => m.primary).length = 1
    · rw [if_pos hone] at h
      refine ⟨nvo, nm, rand3, mf, rfl, hone, ?_⟩
      exact (Option.some.inj h).symm
    · rw [if_neg hone] at h
      exact absurd h (by simp)

theorem pluggedMonitors_with_a_range {E : Nat → Nat → Nat} {self s' : ComputerFuzzer}
    {min max nvo nm : Nat} {rand3 : StdRng} {mf : MonitorFuzzer} {fn fd : List String}
    (hdc : self.draw_counts E min max = some (nvo, nm, rand3, mf))
    (hs : s' = { self with
        rand := (sampleWithoutReplacement E rand3 (List.range nvo) nm).2,
        video_outputs := plugAll (VideoOutputFuzzer.generate_several nvo)
          (mf.generate_several_with_constraints E nm self.has_an_internal_display fn fd).1
          ((sampleWithoutReplacement E rand3 (List.range nvo) nm).1.insertionSort (· ≤ ·)) }) :
    pluggedMonitors s'.video_outputs
      = (mf.generate_several_with_constraints E nm self.has_an_internal_display fn fd).1 := by
  obtain ⟨_, _, _, hnm, _⟩ := draw_counts_inversion hdc
  subst hs
  show (plugAll (VideoOutputFuzzer.generate_several nvo) _ _).filterMap (fun vo => vo.monitor) = _
  set idxs0 := (sampleWithoutReplacement E rand3 (List.range nvo) nm).1 with hidxs0
  have hlen0 : idxs0.length = nm := by
    rw [hidxs0]
    exact sample_length E nm rand3 (List.range nvo) (by simpa using hnm)
  have hnd0 : idxs0.Nodup := sample_nodup E nm rand3 (List.range nvo) (List.nodup_range nvo)
  have hsub0 : ∀ i ∈ idxs0, i < nvo := by
    intro i hi
    have := sample_subset E nm rand3 (List.range nvo) i hi
    exact List.mem_range.mp this
  set sorted := idxs0.insertionSort (· ≤ ·) with hsorted
  have hperm : sorted.Perm idxs0 := List.perm_insertionSort _ _
  have hsortle : sorted.Sorted (· ≤ ·) := List.sorted_insertionSort _ _
  have hndsorted : sorted.Nodup := hperm.nodup_iff.mpr hnd0
  have hpw : sorted.Pairwise (· < ·) := hsortle.lt_of_le hndsorted
  apply filterMap_foldPlug
  · exact hpw
  · rw [hperm.length_eq, hlen0, batch_length]
  · intro i hi
    rw [length_video_outputs]
    exact hsub0 i (hperm.mem_iff.mp hi)
  · exact video_outputs_unplugged nvo

/-! ## The summary-name resolution -/

theorem getMonitorFrom_eq_spec :
    ∀ (vos : List FuzzedVideoOutput) (b : Bool), getMonitorFrom vos b = getMonitorSpec vos b
  | [], _ => rfl
  | vo :: vos, b => by
    have ih := getMonitorFrom_eq_spec vos b
    cases hm : vo.monitor with
    | none =>
      have h1 : getMonitorFrom (vo :: vos) b = getMonitorFrom vos b := by
        unfold getMonitorFrom
        rw [List.filterMap_cons]
        simp only [hm]
      have h2 : getMonitorSpec (vo :: vos) b = getMonitorSpec vos b := by
        unfold getMonitorSpec pluggedMonitors
        rw [List.filterMap_cons]
        simp only [hm]
      rw [h1, h2, ih]
    | some m =>
      by_cases hp : (m.primary == b) = true
      · have h1 : getMonitorFrom (vo :: vos) b = m.name := by
          unfold getMonitorFrom
          rw [List.filterMap_cons]
          simp only [hm, if_pos hp]
          rfl
        have h2 : getMonitorSpec (vo :: vos) b = m.name := by
          unfold getMonitorSpec pluggedMonitors
          rw [List.filterMap_cons]
          simp only [hm]
          have hfp : List.find? (fun m' => m'.primary == b)
              (m :: vos.filterMap fun vo => vo.monitor) = some m :=
            List.find?_cons_of_pos _ hp
          rw [hfp]
        rw [h1, h2]
      · have h1 : getMonitorFrom (vo :: vos) b = getMonitorFrom vos b := by
          unfold getMonitorFrom
          rw [List.filterMap_cons]
          simp only [hm, if_neg hp]
        have h2 : getMonitorSpec (vo :: vos) b = getMonitorSpec vos b := by
          unfold getMonitorSpec pluggedMonitors
          rw [List.filterMap_cons]
          simp only [hm]
          have hfn : List.find? (fun m' => m'.primary == b)
              (m :: vos.filterMap fun vo => vo.monitor)
              = List.find? (fun m' => m'.primary == b)
                (vos.filterMap fun vo => vo.monitor) :=
            List.find?_cons_of_neg _ hp
          rw [hfn]
        rw [h1, h2, ih]

/-! ## find? helpers -/

theorem find?_unique_nodup {p : Nat → Bool} :
    ∀ (l : List Nat) (j : Nat), l.Nodup → j ∈ l → (∀ x ∈ l, (p x = true ↔ x = j)) →
      l.find? p = some j
  | [], j, _, hj, _ => absurd hj (List.not_mem_nil j)
  | a :: l, j, hnd, hj, hp => by
    by_cases hpa : p a = true
    · have ha : a = j := (hp a (List.mem_cons_self _ _)).mp hpa
      rw [List.find?_cons_of_pos _ hpa, ha]
    · have ha : a ≠ j := fun he => hpa ((hp a (List.mem_cons_self _ _)).mpr he)
      have hjl : j ∈ l := by
        rcases List.mem_cons.mp hj with h | h
        · exact absurd h.symm ha
        · exact h
      rw [List.find?_cons_of_neg _ (by simpa using hpa)]
      exact find?_unique_nodup l j (List.nodup_cons.mp hnd).2 hjl
        fun x hx => hp x (List.mem_cons_of_mem _ hx)

theorem find?_range_first_ne (n j : Nat) (hn : 2 ≤ n) (q : Nat → Bool)
    (hq : ∀ i, i < n → (q i = true ↔ i ≠ j)) :
    (List.range n).find? q = some (if j = 0 then 1 else 0) := by
  by_cases hj0 : j = 0
  · subst hj0
    obtain ⟨m, rfl⟩ : ∃ m, n = m + 2 := ⟨n - 2, by omega⟩
    have hq0 : q 0 = false := by
      have := hq 0 (by omega)
      simp only [ne_eq, not_true_eq_false, iff_false, Bool.not_eq_true] at this
      exact this
    have hq1 : q 1 = true := (hq 1 (by omega)).mpr (by omega)
    rw [List.range_succ_eq_map, List.find?_cons_of_neg _ (by simp [hq0]),
      List.range_succ_eq_map, List.map_cons,
      List.find?_cons_of_pos _ (by simpa using hq1)]
    simp
  · obtain ⟨m, rfl⟩ : ∃ m, n = m + 1 := ⟨n - 1, by omega⟩
    have hq0 : q 0 = true := (hq 0 (by omega)).mpr (by omega)
    rw [List.range_succ_eq_map, List.find?_cons_of_pos _ hq0, if_neg hj0]

theorem find?_zip_nodup :
    ∀ (idxs : List Nat) (ms : List FuzzedMonitor) (k j : Nat) (m : FuzzedMonitor),
      idxs.Nodup → idxs[k]? = some j → ms[k]? = some m →
      (idxs.zip ms).find? (fun p => p.1 == j) = some (j, m)
  | [], _, k, _, _, _, hk, _ => by simp at hk
  | i :: idxs, ms, k, j, m, hnd, hk, hm => by
    cases ms with
    | nil => simp at hm
    | cons m0 ms =>
      cases k with
      | zero =>
        have hij : i = j := by simpa using hk
        have hm0 : m0 = m := by simpa using hm
        subst hij
        subst hm0
        rw [List.zip_cons_cons, List.find?_cons_of_pos _ (by simp)]
      | succ k =>
        have hk' : idxs[k]? = some j := by simpa using hk
        have hm' : ms[k]? = some m := by simpa using hm
        have hji : j ∈ idxs := List.getElem?_mem hk'
        have hne : i ≠ j := fun he => (List.nodup_cons.mp hnd).1 (he ▸ hji)
        rw [List.zip_cons_cons, List.find?_cons_of_neg _ (by simpa using hne)]
        exact find?_zip_nodup idxs ms k j m (List.nodup_cons.mp hnd).2 hk' hm'

/-! ## The assertion in build never fires after a successful configuration -/

theorem batch_find_primary (E : Nat → Nat → Nat) (f : MonitorFuzzer) (n : Nat)
    (internal : Bool) (fn fd : List String) (hn : 0 < n) :
    ((f.generate_several_with_constraints E n internal fn fd).1.find?
      fun m => m.primary == true)
      = some (bridgeMonitor E f n internal fn (bridgePrimaryIndex E f n)) := by
  rw [bridge_batch_eq, List.find?_map]
  have hj : bridgePrimaryIndex E f n < n := Nat.mod_lt _ hn
  have hfind : ((List.range n).find?
      ((fun m => m.primary == true) ∘ bridgeMonitor E f n internal fn))
      = some (bridgePrimaryIndex E f n) := by
    apply find?_unique_nodup _ _ (List.nodup_range n) (List.mem_range.mpr hj)
    intro x _
    simp only [Function.comp_apply, beq_iff_eq]
    exact bridgeMonitor_primary_iff E f n internal fn x
  rw [hfind, Option.map_some']

theorem batch_find_secondary_one (E : Nat → Nat → Nat) (f : MonitorFuzzer)
    (internal : Bool) (fn fd : List String) :
    ((f.generate_several_with_constraints E 1 internal fn fd).1.find?
      fun m => m.primary == false) = none := by
  rw [bridge_batch_eq, List.find?_map]
  have hj : bridgePrimaryIndex E f 1 = 0 := by
    have : bridgePrimaryIndex E f 1 < 1 := Nat.mod_lt _ Nat.one_pos
    omega
  have hfind : ((List.range 1).find?
      ((fun m => m.primary == false) ∘ bridgeMonitor E f 1 internal fn)) = none := by
    rw [List.find?_eq_none]
    intro x hx
    have hx0 : x = 0 := by simpa using List.mem_range.mp hx
    subst hx0
    have hprim : (bridgeMonitor E f 1 internal fn 0).primary = true :=
      (bridgeMonitor_primary_iff E f 1 internal fn 0).mpr (by omega)
    simp [Function.comp_apply, hprim]
  rw [hfind]
  rfl

theorem batch_find_secondary_ge_two (E : Nat → Nat → Nat) (f : MonitorFuzzer) (n : Nat)
    (internal : Bool) (fn fd : List String) (hn : 2 ≤ n) :
    ((f.generate_several_with_constraints E n internal fn fd).1.find?
      fun m => m.primary == false)
      = some (bridgeMonitor E f n internal fn
          (if bridgePrimaryIndex E f n = 0 then 1 else 0)) := by
  rw [bridge_batch_eq, List.find?_map]
  have hfind : ((List.range n).find?
      ((fun m => m.primary == false) ∘ bridgeMonitor E f n internal fn))
      = some (if bridgePrimaryIndex E f n = 0 then 1 else 0) := by
    apply find?_range_first_ne n (bridgePrimaryIndex E f n) hn
    intro i _
    simp only [Function.comp_apply, beq_iff_eq, Bool.not_eq_true]
    constructor
    · intro hfalse he
      rw [(bridgeMonitor_primary_iff E f n internal fn i).mpr he] at hfalse
      exact Bool.noConfusion hfalse
    · intro hne
      rw [← Bool.not_eq_true]
      exact fun hc => hne ((bridgeMonitor_primary_iff E f n internal fn i).mp hc)
  rw [hfind, Option.map_some']

theorem with_a_range_names_distinct {E : Nat → Nat → Nat} {self s' : ComputerFuzzer}
    {min max : Nat} {fn fd : List String}
    (h : self.with_a_range_of_monitors E min max fn fd = some s') :
    getMonitorFrom s'.video_outputs false ≠ getMonitorFrom s'.video_outputs true := by
  obtain ⟨nvo, nm, rand3, mf, hdc, hone, hs⟩ := with_a_range_inversion h
  have hplug := pluggedMonitors_with_a_range hdc hs
  have hnm : 0 < nm := by
    by_contra hc
    have hzero : nm = 0 := by omega
    subst hzero
    rw [bridge_batch_eq] at hone
    simp at hone
  have hjlt : bridgePrimaryIndex E mf nm < nm := Nat.mod_lt _ hnm
  rw [getMonitorFrom_eq_spec, getMonitorFrom_eq_spec]
  unfold getMonitorSpec
  rw [hplug]
  rw [batch_find_primary E mf nm self.has_an_internal_display fn fd hnm]
  have hnameJ : (bridgeMonitor E mf nm self.has_an_internal_display fn
      (bridgePrimaryIndex E mf nm)).name
      = if self.has_an_internal_display then ""
        else natToName (bridgeNameBase E mf fn + bridgePrimaryIndex E mf nm) := by
    rw [bridgeMonitor_name]
    simp
  by_cases h2 : 2 ≤ nm
  · rw [batch_find_secondary_ge_two E mf nm self.has_an_internal_display fn fd h2]
    have htne : (if bridgePrimaryIndex E mf nm = 0 then 1 else 0)
        ≠ bridgePrimaryIndex E mf nm := by
      by_cases hj0 : bridgePrimaryIndex E mf nm = 0
      · simp [hj0]
      · simp only [if_neg hj0]
        exact fun hc => hj0 hc.symm
    have hnameT : (bridgeMonitor E mf nm self.has_an_internal_display fn
        (if bridgePrimaryIndex E mf nm = 0 then 1 else 0)).name
        = natToName (bridgeNameBase E mf fn
            + (if bridgePrimaryIndex E mf nm = 0 then 1 else 0)) := by
      rw [bridgeMonitor_name]
      simp [htne]
    dsimp only
    rw [hnameJ, hnameT]
    by_cases hint : self.has_an_internal_display
    · rw [if_pos hint]
      exact natToName_ne_empty _
    · rw [if_neg hint]
      intro hc
      have := natToName_injective hc
      exact htne (by omega)
  · have hone' : nm = 1 := by omega
    subst hone'
    rw [batch_find_secondary_one E mf self.has_an_internal_display fn fd]
    dsimp only
    simp only [Bool.false_eq_true, if_false]
    rw [hnameJ]
    by_cases hint : self.has_an_internal_display
    · rw [if_pos hint]
      decide
    · rw [if_neg hint]
      exact (natToName_ne_secondary_sentinel _).symm

theorem build_ne_none_iff (s : ComputerFuzzer) :
    s.build ≠ none
      ↔ getMonitorFrom s.video_outputs false ≠ getMonitorFrom s.video_outputs true := by
  unfold ComputerFuzzer.build ComputerFuzzer.get_monitor
  by_cases h : getMonitorFrom s.video_outputs false = getMonitorFrom s.video_outputs true
  · simp [h]
  · simp [h]

theorem applyCall_preserves_distinct {E : Nat → Nat → Nat} {s s' : ComputerFuzzer}
    {c : ConfigCall}
    (hP : getMonitorFrom s.video_outputs false ≠ getMonitorFrom s.video_outputs true)
    (h : applyCall E s c = some s') :
    getMonitorFrom s'.video_outputs false ≠ getMonitorFrom s'.video_outputs true := by
  cases c with
  | with_two_monitors_or_more => exact with_a_range_names_distinct h
  | with_n_monitors n => exact with_a_range_names_distinct h
  | with_an_internal_display_and_at_least_one_more_monitor =>
    exact with_a_range_names_distinct h
  | with_two_monitors_or_more_with_names_different_than fnn =>
    exact with_a_range_names_distinct h
  | with_two_monitors_or_more_with_device_ids_different_than fdd =>
    exact with_a_range_names_distinct h
  | for_which_committing_the_display_changes_fails_with e =>
    have hs : s.for_which_committing_the_display_changes_fails_with e = s' :=
      Option.some.inj h
    rw [← hs]
    exact hP
  | for_which_getting_the_primary_monitor_fails =>
    have hs : s.for_which_getting_the_primary_monitor_fails = s' := Option.some.inj h
    rw [← hs]
    exact hP
  | for_which_querying_the_display_config_of_the_primary_monitor_fails =>
    have hs : s.for_which_querying_the_display_config_of_the_primary_monitor_fails = s' :=
      Option.some.inj h
    rw [← hs]
    exact hP
  | for_which_changing_the_display_settings_fails_for_some_monitors e =>
    simp only [applyCall] at h
    unfold ComputerFuzzer.for_which_changing_the_display_settings_fails_for_some_monitors at h
    dsimp only at h
    cases hg : s.rand.gen_range_excl E 1 (pluggedPaths s.video_outputs).length with
    | none => rw [hg] at h; exact absurd h (by simp)
    | some p =>
      rw [hg, Option.map_some'] at h
      have hs := Option.some.inj h
      rw [← hs]
      exact hP

theorem foldl_step_none (E : Nat → Nat → Nat) :
    ∀ (calls : List ConfigCall),
      calls.foldl (fun os c => os.bind fun s => applyCall E s c) none = none
  | [] => rfl
  | _ :: calls => foldl_step_none E calls

theorem runCalls_aux_distinct {E : Nat → Nat → Nat} :
    ∀ (calls : List ConfigCall) (s0 s : ComputerFuzzer),
      getMonitorFrom s0.video_outputs false ≠ getMonitorFrom s0.video_outputs true →
      calls.foldl (fun os c => os.bind fun s => applyCall E s c) (some s0) = some s →
      getMonitorFrom s.video_outputs false ≠ getMonitorFrom s.video_outputs true
  | [], s0, s, hP, h => by
    have hss : s0 = s := Option.some.inj h
    exact hss ▸ hP
  | c :: calls, s0, s, hP, h => by
    rw [List.foldl_cons, Option.some_bind] at h
    cases ha : applyCall E s0 c with
    | none =>
      rw [ha, foldl_step_none E calls] at h
      exact absurd h (by simp)
    | some s1 =>
      rw [ha] at h
      exact runCalls_aux_distinct calls s1 s (applyCall_preserves_distinct hP ha) h

theorem runCalls_distinct {E : Nat → Nat → Nat} {seed : Nat} {calls : List ConfigCall}
    {s : ComputerFuzzer} (h : runCalls E seed calls = some s) :
    getMonitorFrom s.video_outputs false ≠ getMonitorFrom s.video_outputs true := by
  apply runCalls_aux_distinct calls (ComputerFuzzer.new (StdRng.seed_from_u64 seed)) s _ h
  show getMonitorFrom [] false ≠ getMonitorFrom [] true
  decide

/-! ## Association-list (HashMap model) lemmas -/

theorem mapInsert_ne_nil (m : List (String × DISP_CHANGE)) (k : String)
    (v : DISP_CHANGE) : mapInsert m k v ≠ [] := by
  unfold mapInsert
  by_cases h : m.any fun p => p.1 == k
  · rw [if_pos h]
    intro hc
    rw [List.map_eq_nil_iff] at hc
    subst hc
    simp at h
  · rw [if_neg h]
    simp

theorem length_mapInsert (m : List (String × DISP_CHANGE)) (k : String)
    (v : DISP_CHANGE) : (mapInsert m k v).length ≤ m.length + 1 := by
  unfold mapInsert
  by_cases h : m.any fun p => p.1 == k
  · rw [if_pos h]
    simp
  · rw [if_neg h]
    simp

theorem mem_mapInsert {m : List (String × DISP_CHANGE)} {k : String} {v : DISP_CHANGE}
    {kv : String × DISP_CHANGE} (h : kv ∈ mapInsert m k v) : kv ∈ m ∨ kv = (k, v) := by
  unfold mapInsert at h
  by_cases hany : m.any fun p => p.1 == k
  · rw [if_pos hany] at h
    obtain ⟨p, hp, he⟩ := List.mem_map.mp h
    by_cases hpk : (p.1 == k) = true
    · rw [if_pos hpk] at he
      exact Or.inr he.symm
    · rw [if_neg hpk] at he
      exact Or.inl (he ▸ hp)
  · rw [if_neg hany] at h
    rcases List.mem_append.mp h with h | h
    · exact Or.inl h
    · exact Or.inr (by simpa using h)

theorem keys_nodup_mapInsert {m : List (String × DISP_CHANGE)} {k : String}
    {v : DISP_CHANGE} (h : (m.map Prod.fst).Nodup) :
    ((mapInsert m k v).map Prod.fst).Nodup := by
  unfold mapInsert
  by_cases hany : m.any fun p => p.1 == k
  · rw [if_pos hany]
    have hkeys : (m.map fun p => if p.1 == k then (k, v) else p).map Prod.fst
        = m.map Prod.fst := by
      rw [List.map_map]
      apply List.map_congr_left
      intro p _
      simp only [Function.comp_apply]
      by_cases hpk : (p.1 == k) = true
      · have hk : p.1 = k := by simpa using hpk
        rw [if_pos hpk]
        exact hk.symm
      · rw [if_neg hpk]
    rw [hkeys]
    exact h
  · rw [if_neg hany, List.map_append]
    rw [List.nodup_append]
    refine ⟨h, by simp, ?_⟩
    intro x hx
    simp only [List.map_cons, List.map_nil, List.mem_singleton]
    intro hxk
    subst hxk
    obtain ⟨p, hp, hpk⟩ := List.mem_map.mp hx
    exact hany (List.any_eq_true.mpr ⟨p, hp, by simp [hpk]⟩)

theorem foldInsert_facts (e : DISP_CHANGE) :
    ∀ (l : List String) (m : List (String × DISP_CHANGE)),
      (l.foldl (fun m dp => mapInsert m dp e) m).length ≤ m.length + l.length
      ∧ ((m ≠ [] ∨ l ≠ []) → l.foldl (fun m dp => mapInsert m dp e) m ≠ [])
      ∧ (∀ kv ∈ l.foldl (fun m dp => mapInsert m dp e) m, kv ∈ m ∨ (kv.1 ∈ l ∧ kv.2 = e))
      ∧ ((m.map Prod.fst).Nodup →
          ((l.foldl (fun m dp => mapInsert m dp e) m).map Prod.fst).Nodup)
  | [], m => by
    refine ⟨by simp, ?_, ?_, fun h => h⟩
    · intro hne
      rcases hne with h | h
      · simpa using h
      · simp at h
    · intro kv hkv
      exact Or.inl hkv
  | dp :: l, m => by
    obtain ⟨ih1, ih2, ih3, ih4⟩ := foldInsert_facts e l (mapInsert m dp e)
    refine ⟨?_, ?_, ?_, ?_⟩
    · calc (List.foldl (fun m dp => mapInsert m dp e) (mapInsert m dp e) l).length
          ≤ (mapInsert m dp e).length + l.length := ih1
        _ ≤ m.length + 1 + l.length :=
            Nat.add_le_add_right (length_mapInsert m dp e) _
        _ = m.length + (dp :: l).length := by
            simp only [List.length_cons]
            omega
    · intro _
      exact ih2 (Or.inl (mapInsert_ne_nil m dp e))
    · intro kv hkv
      rcases ih3 kv hkv with h | h
      · rcases mem_mapInsert h with h | h
        · exact Or.inl h
        · exact Or.inr ⟨by simp [h], by simp [h]⟩
      · exact Or.inr ⟨List.mem_cons_of_mem _ h.1, h.2⟩
    · intro hnd
      exact ih4 (keys_nodup_mapInsert hnd)

/-! ## Batch member facts used by the claims -/

theorem names_getD (E : Nat → Nat → Nat) (fz : MonitorNameFuzzer) (n : Nat)
    (fn : List String) (i : Nat) (hi : i < n) :
    ((fz.generate_several E n fn).1).getD i ""
      = natToName ((fz.rand.next_u64 E).1
          + (fn.map String.length).foldr Nat.max 0 + 1 + i) :=
  getD_map_range _ _ _ _ hi

/-! ## Claim theorems -/

/-- C1: for every entropy function, identical seed and identical sequence of
configuration calls imply identical fuzzer states and identical built
Computers — the generator is a pure, deterministic function of
(seed, configuration). -/
theorem C1_reproducibility (E : Nat → Nat → Nat) (seed₁ seed₂ : Nat)
    (calls₁ calls₂ : List ConfigCall) (hs : seed₁ = seed₂) (hc : calls₁ = calls₂) :
    runCalls E seed₁ calls₁ = runCalls E seed₂ calls₂
    ∧ runAndBuild E seed₁ calls₁ = runAndBuild E seed₂ calls₂ := by
  subst hs
  subst hc
  exact ⟨rfl, rfl⟩

theorem C1_reproducibility_witness :
    runCalls testEntropy 0 [ConfigCall.with_n_monitors 2]
      = runCalls testEntropy 0 [ConfigCall.with_n_monitors 2]
    ∧ runAndBuild testEntropy 0 [ConfigCall.with_n_monitors 2]
      = runAndBuild testEntropy 0 [ConfigCall.with_n_monitors 2] :=
  C1_reproducibility testEntropy 0 0 [ConfigCall.with_n_monitors 2]
    [ConfigCall.with_n_monitors 2] rfl rfl

/-- C2: every monitor set kept by `with_a_range_of_monitors` has exactly one
primary monitor, and a plugged monitor is primary iff its position is the
origin (0,0); a batch violating exactly-one-primary makes the call abort
(`none`, modelling the `assert_eq!` panic of computer.rs lines 183–187) rather
than return an error value. -/
theorem C2_exactly_one_primary (E : Nat → Nat → Nat) (self s' : ComputerFuzzer)
    (min max : Nat) (fn fd : List String)
    (h : self.with_a_range_of_monitors E min max fn fd = some s') :
    ((pluggedMonitors s'.video_outputs).filter fun m => m.primary).length = 1
    ∧ (∀ m ∈ pluggedMonitors s'.video_outputs,
        m.primary = true ↔ m.position = (⟨0, 0⟩ : FuzzedMonitorPosition))
    ∧ (∀ (self2 : ComputerFuzzer) (min2 max2 : Nat) (fn2 fd2 : List String)
        (t : List FuzzedMonitor × Nat × Nat × StdRng),
        self2.monitor_batch E min2 max2 fn2 fd2 = some t →
        (t.1.filter fun m => m.primary).length ≠ 1 →
        self2.with_a_range_of_monitors E min2 max2 fn2 fd2 = none) := by
  obtain ⟨nvo, nm, rand3, mf, hdc, hone, hs⟩ := with_a_range_inversion h
  have hplug := pluggedMonitors_with_a_range hdc hs
  refine ⟨?_, ?_, ?_⟩
  · rw [hplug]
    exact hone
  · intro m hm
    rw [hplug] at hm
    exact batch_mem_primary_iff_origin hm
  · intro self2 min2 max2 fn2 fd2 t ht hne
    unfold ComputerFuzzer.with_a_range_of_monitors
    rw [ht, Option.some_bind]
    dsimp only
    rw [if_neg hne]

theorem C2_exactly_one_primary_witness :
    ((pluggedMonitors rangeResult.video_outputs).filter fun m => m.primary).length = 1 :=
  (C2_exactly_one_primary testEntropy freshState rangeResult 2 2 [] [] (by rfl)).1

/-- C3: on a state with `p ≥ 2` plugged monitors and an empty failure map,
injecting per-monitor failures with code `e` produces a failure map with `k`
keys, `1 ≤ k < p`, all keys plugged device paths, all values `e`, and the keys
pairwise distinct. -/
theorem C3_partial_failure_injection (E : Nat → Nat → Nat)
    (s s' : ComputerFuzzer) (e : DISP_CHANGE) (p : Nat)
    (hp : (pluggedPaths s.video_outputs).length = p) (h2 : 2 ≤ p)
    (hmap : s.change_display_settings_error_by_monitor = [])
    (h : s.for_which_changing_the_display_settings_fails_for_some_monitors E e
      = some s') :
    1 ≤ s'.change_display_settings_error_by_monitor.length
    ∧ s'.change_display_settings_error_by_monitor.length < p
    ∧ (∀ kv ∈ s'.change_display_settings_error_by_monitor,
        kv.1 ∈ pluggedPaths s.video_outputs ∧ kv.2 = e)
    ∧ (s'.change_display_settings_error_by_monitor.map Prod.fst).Nodup := by
  unfold ComputerFuzzer.for_which_changing_the_display_settings_fails_for_some_monitors at h
  dsimp only at h
  cases hg : s.rand.gen_range_excl E 1 (pluggedPaths s.video_outputs).length with
  | none =>
    rw [hg] at h
    exact absurd h (by simp)
  | some q =>
    rw [hg, Option.map_some'] at h
    obtain ⟨hq1, hq2⟩ := gen_range_excl_bounds hg
    have hmapEq : s'.change_display_settings_error_by_monitor
        = (sampleWithoutReplacement E q.2 (pluggedPaths s.video_outputs) q.1).1.foldl
            (fun m dp => mapInsert m dp e) [] := by
      rw [← Option.some.inj h, hmap]
    have hq1p : q.1 ≤ (pluggedPaths s.video_outputs).length := by omega
    have hclen : (sampleWithoutReplacement E q.2 (pluggedPaths s.video_outputs) q.1).1.length
        = q.1 := sample_length E q.1 q.2 (pluggedPaths s.video_outputs) hq1p
    have hcne : (sampleWithoutReplacement E q.2 (pluggedPaths s.video_outputs) q.1).1 ≠ [] := by
      intro hc
      rw [hc] at hclen
      simp at hclen
      omega
    obtain ⟨hf1, hf2, hf3, hf4⟩ := foldInsert_facts e
      (sampleWithoutReplacement E q.2 (pluggedPaths s.video_outputs) q.1).1
      ([] : List (String × DISP_CHANGE))
    refine ⟨?_, ?_, ?_, ?_⟩
    · rw [hmapEq]
      exact List.length_pos.mpr (hf2 (Or.inr hcne))
    · rw [hmapEq]
      calc ((sampleWithoutReplacement E q.2 (pluggedPaths s.video_outputs) q.1).1.foldl
            (fun m dp => mapInsert m dp e) []).length
          ≤ ([] : List (String × DISP_CHANGE)).length
            + (sampleWithoutReplacement E q.2 (pluggedPaths s.video_outputs) q.1).1.length :=
            hf1
        _ = q.1 := by rw [hclen]; simp
        _ < p := by omega
    · intro kv hkv
      rw [hmapEq] at hkv
      rcases hf3 kv hkv with hkv0 | hkv1
      · exact absurd hkv0 (List.not_mem_nil kv)
      · exact ⟨sample_subset E q.1 q.2 (pluggedPaths s.video_outputs) kv.1 hkv1.1, hkv1.2⟩
    · rw [hmapEq]
      exact hf4 (by simp)

theorem C3_partial_failure_injection_witness :
    1 ≤ failResult.change_display_settings_error_by_monitor.length
    ∧ failResult.change_display_settings_error_by_monitor.length < 2 :=
  ⟨(C3_partial_failure_injection testEntropy demoState failResult 5 2 (by rfl)
      (by omega) (by rfl) (by rfl)).1,
    (C3_partial_failure_injection testEntropy demoState failResult 5 2 (by rfl)
      (by omega) (by rfl) (by rfl)).2.1⟩

/-- C4: in every monitor batch built by `MonitorFuzzer::generate_several`
(monitor.rs lines 56–65), when the internal-display flag is set every primary
monitor has the empty name, and when the flag is unset no generated monitor has
an empty name. -/
theorem C4_internal_display_rule (E : Nat → Nat → Nat) (f : MonitorFuzzer)
    (p1 : Int) (p2 : String) (p3 : Int) (p4 : String) (internal : Bool)
    (prs : List FuzzedMonitorPositionedResolution) (fn : List String) :
    (internal = true →
      ∀ m ∈ (f.generate_several E p1 p2 p3 p4 internal prs fn).1,
        m.primary = true → m.name = "")
    ∧ (internal = false →
      ∀ m ∈ (f.generate_several E p1 p2 p3 p4 internal prs fn).1, m.name ≠ "") := by
  constructor
  · intro hint m hm hprim
    subst hint
    unfold MonitorFuzzer.generate_several at hm
    dsimp only at hm
    obtain ⟨i, hi, rfl⟩ := List.mem_map.mp hm
    dsimp only at hprim ⊢
    rw [Bool.true_and, hprim]
    simp
  · intro hint m hm
    subst hint
    unfold MonitorFuzzer.generate_several at hm
    dsimp only at hm
    obtain ⟨i, hi, rfl⟩ := List.mem_map.mp hm
    dsimp only
    simp only [Bool.false_and, Bool.false_eq_true, if_false]
    rw [names_getD E f.monitor_name_fuzzer prs.length fn i (List.mem_range.mp hi)]
    exact natToName_ne_empty _

theorem C4_internal_display_rule_witness :
    (demoBatch.getD 0 default).name = "" :=
  (C4_internal_display_rule testEntropy demoFuzzer 4 "ACPI" 3 "PCI" true demoPrs []).1
    rfl (demoBatch.getD 0 default) (by decide) (by decide)

set_option maxRecDepth 10000 in
/-- C5 counterexample: requesting exactly 163 monitors succeeds and yields a
generated state with 163 video outputs, refuting the claim's unconditional
"video-output count never exceeds 162". -/
theorem C5_counterexample_exceeds_162 :
    (runCalls testEntropy 0 [ConfigCall.with_n_monitors 163]).map
      (fun s => s.video_outputs.length) = some 163
    ∧ 162 < 163 :=
  ⟨by decide, by decide⟩

/-- C5 amended: for every successful ranged configuration the counts satisfy
min ≤ monitor count ≤ video-output count ≤ max, so the video-output count is at
most 162 whenever the configured max is at most MAX_VIDEO_OUTPUTS = 162 (as in
every range-based public call); the unconditional 162 bound fails for
`with_n_monitors n` with `n > 162` (see the counterexample). -/
theorem C5_cardinality_amended (E : Nat → Nat → Nat) (self s' : ComputerFuzzer)
    (min max : Nat) (fn fd : List String)
    (h : self.with_a_range_of_monitors E min max fn fd = some s') :
    min ≤ (pluggedMonitors s'.video_outputs).length
    ∧ (pluggedMonitors s'.video_outputs).length ≤ s'.video_outputs.length
    ∧ min ≤ s'.video_outputs.length
    ∧ s'.video_outputs.length ≤ max
    ∧ (max ≤ ComputerFuzzer.MAX_VIDEO_OUTPUTS → s'.video_outputs.length ≤ 162) := by
  obtain ⟨nvo, nm, rand3, mf, hdc, hone, hs⟩ := with_a_range_inversion h
  obtain ⟨hb1, hb2, hb3, hb4, _⟩ := draw_counts_inversion hdc
  have hplug := pluggedMonitors_with_a_range hdc hs
  have hlenvo : s'.video_outputs.length = nvo := by
    rw [hs]
    dsimp only
    unfold plugAll
    rw [length_foldPlug, length_video_outputs]
  have hlenpm : (pluggedMonitors s'.video_outputs).length = nm := by
    rw [hplug, batch_length]
  have hMAX : ComputerFuzzer.MAX_VIDEO_OUTPUTS = 162 := rfl
  exact ⟨by omega, by omega, by omega, by omega, fun hmax => by omega⟩

theorem C5_cardinality_amended_witness :
    (pluggedMonitors rangeResultWide.video_outputs).length
      ≤ rangeResultWide.video_outputs.length
    ∧ rangeResultWide.video_outputs.length ≤ 3 :=
  ⟨(C5_cardinality_amended testEntropy freshState rangeResultWide 2 3 [] []
      (by rfl)).2.1,
    (C5_cardinality_amended testEntropy freshState rangeResultWide 2 3 [] []
      (by rfl)).2.2.2.1⟩

/-- C6 counterexample: `MonitorFuzzer::new` (monitor.rs lines 30–39) draws ONE
value from the parent stream and seeds all four sub-generators from that same
value; at the concrete entropy `testEntropy` and parent `seed_from_u64 5` the
sub-generators are not seeded from four successive fresh draws, refuting
"each sub-generator is constructed from a freshly drawn value of the parent's
random stream, independently seeded". -/
theorem C6_counterexample_shared_seed :
    ¬ FreshlySeededPerSubGenerator testEntropy (StdRng.seed_from_u64 5) := by
  decide

/-- C6 amended: one value is drawn from the parent stream and all four
sub-generators are seeded from that same value; each sub-generator owns its
generator state, so generating monitor names leaves the device-id generator
untouched (call-order independence survives, independence of the four streams
does not — they are identical). -/
theorem C6_seeding_amended (E : Nat → Nat → Nat) (r : StdRng) (f : MonitorFuzzer)
    (p1 : Int) (p2 : String) (p3 : Int) (p4 : String) (internal : Bool)
    (prs : List FuzzedMonitorPositionedResolution) (fn : List String) :
    (MonitorFuzzer.new E r).monitor_name_fuzzer.rand
        = StdRng.seed_from_u64 (r.next_u64 E).1
    ∧ (MonitorFuzzer.new E r).device_id_fuzzer.rand
        = StdRng.seed_from_u64 (r.next_u64 E).1
    ∧ (MonitorFuzzer.new E r).config_mode_info_id_fuzzer.rand
        = StdRng.seed_from_u64 (r.next_u64 E).1
    ∧ (MonitorFuzzer.new E r).gsm_id_fuzzer.rand
        = StdRng.seed_from_u64 (r.next_u64 E).1
    ∧ (f.generate_several E p1 p2 p3 p4 internal prs fn).2.device_id_fuzzer
        = f.device_id_fuzzer :=
  ⟨rfl, rfl, rfl, rfl, rfl⟩

/-- C7: the chosen output indices are sampled without replacement and sorted
ascending before assignment (computer.rs lines 191–207): the sorted index list
is ≤-sorted, duplicate-free, of length n_mon and within bounds; the k-th
generated monitor ends up plugged into the k-th entry of the sorted list (the
k-th smallest chosen index); and sorting makes the assignment depend only on
the set of chosen indices, not on their relative order. -/
theorem C7_sorted_stable_assignment (E : Nat → Nat → Nat) (r : StdRng)
    (n_out n_mon : Nat) (ms : List FuzzedMonitor) (idxs : List Nat)
    (hmon : n_mon ≤ n_out) (hlen : ms.length = n_mon)
    (hidx : idxs
      = (sampleWithoutReplacement E r (List.range n_out) n_mon).1.insertionSort (· ≤ ·)) :
    idxs.Sorted (· ≤ ·) ∧ idxs.Nodup ∧ idxs.length = n_mon ∧ (∀ i ∈ idxs, i < n_out)
    ∧ (∀ (k j : Nat) (m : FuzzedMonitor), idxs[k]? = some j → ms[k]? = some m →
        ((plugAll (VideoOutputFuzzer.generate_several n_out) ms idxs)[j]?).map
          (fun vo => vo.monitor) = some (some m))
    ∧ (∀ l₁ l₂ : List Nat, l₁.Perm l₂ →
        l₁.insertionSort (· ≤ ·) = l₂.insertionSort (· ≤ ·)) := by
  have hperm : idxs.Perm (sampleWithoutReplacement E r (List.range n_out) n_mon).1 := by
    rw [hidx]
    exact List.perm_insertionSort _ _
  have hsorted : idxs.Sorted (· ≤ ·) := by
    rw [hidx]
    exact List.sorted_insertionSort _ _
  have hnd : idxs.Nodup :=
    hperm.nodup_iff.mpr (sample_nodup E n_mon r (List.range n_out) (List.nodup_range n_out))
  have hlenidx : idxs.length = n_mon := by
    rw [hperm.length_eq]
    exact sample_length E n_mon r (List.range n_out) (by simpa using hmon)
  have hbound : ∀ i ∈ idxs, i < n_out := by
    intro i hi
    have := sample_subset E n_mon r (List.range n_out) i (hperm.mem_iff.mp hi)
    exact List.mem_range.mp this
  refine ⟨hsorted, hnd, hlenidx, hbound, ?_, ?_⟩
  · intro k j m hk hm
    have hjlt : j < n_out := hbound j (List.getElem?_mem hk)
    have hndfst : ((idxs.zip ms).map Prod.fst).Nodup := by
      rw [List.map_fst_zip idxs ms (by omega)]
      exact hnd
    have hget := foldPlug_getElem? (idxs.zip ms) (VideoOutputFuzzer.generate_several n_out)
      j hndfst
    have hfind : ((idxs.zip ms).find? fun p => p.1 == j) = some (j, m) :=
      find?_zip_nodup idxs ms k j m hnd hk hm
    unfold plugAll
    rw [hget, hfind]
    have hout : (VideoOutputFuzzer.generate_several n_out)[j]?
        = some ⟨devicePath j, none⟩ := by
      unfold VideoOutputFuzzer.generate_several
      rw [List.getElem?_map, List.getElem?_range hjlt]
      rfl
    rw [hout]
    rfl
  · intro l₁ l₂ hp
    have hs1 : (l₁.insertionSort (· ≤ ·)).Sorted (· ≤ ·) := List.sorted_insertionSort _ _
    have hs2 : (l₂.insertionSort (· ≤ ·)).Sorted (· ≤ ·) := List.sorted_insertionSort _ _
    have hpp : (l₁.insertionSort (· ≤ ·)).Perm (l₂.insertionSort (· ≤ ·)) :=
      ((List.perm_insertionSort _ l₁).trans hp).trans
        (List.perm_insertionSort _ l₂).symm
    exact List.eq_of_perm_of_sorted hpp hs1 hs2

theorem C7_sorted_stable_assignment_witness :
    demoIdxs.Sorted (· ≤ ·) ∧ demoIdxs.length = 2 :=
  ⟨(C7_sorted_stable_assignment testEntropy (StdRng.seed_from_u64 0) 3 2
      [demoMonitorA, demoMonitorB] demoIdxs (by omega) (by rfl) (by rfl)).1,
    (C7_sorted_stable_assignment testEntropy (StdRng.seed_from_u64 0) 3 2
      [demoMonitorA, demoMonitorB] demoIdxs (by omega) (by rfl) (by rfl)).2.2.1⟩

/-- C8: in build(), the primary and secondary summary fields equal the name of
the first plugged monitor whose primary flag is true (respectively false), with
the sentinels "<primary>" / "<secondary>" when no monitor matches: the code's
resolution (`getMonitorFrom`, computer.rs lines 214–230) coincides everywhere
with the spec-worded `find?`-based resolution (`getMonitorSpec`). -/
theorem C8_summary_name_resolution (s : ComputerFuzzer) (c : FuzzedComputer)
    (h : s.build = some c) :
    c.primary_monitor = getMonitorSpec s.video_outputs true
    ∧ c.secondary_monitor = getMonitorSpec s.video_outputs false
    ∧ ∀ (vos : List FuzzedVideoOutput) (b : Bool),
        getMonitorFrom vos b = getMonitorSpec vos b := by
  unfold ComputerFuzzer.build at h
  dsimp only at h
  by_cases he : s.get_monitor false = s.get_monitor true
  · rw [if_pos he] at h
    exact absurd h (by simp)
  · rw [if_neg he] at h
    have hc := Option.some.inj h
    refine ⟨?_, ?_, fun vos b => getMonitorFrom_eq_spec vos b⟩
    · rw [← hc]
      exact getMonitorFrom_eq_spec _ _
    · rw [← hc]
      exact getMonitorFrom_eq_spec _ _

theorem C8_summary_name_resolution_witness :
    demoComputer.primary_monitor = getMonitorSpec demoState.video_outputs true :=
  (C8_summary_name_resolution demoState demoComputer (by rfl)).1

/-- C9: the `assert_ne!` of build() (computer.rs lines 101–104) comparing the
resolved primary and secondary names never fires on any state reachable by a
run of public configuration calls (build returns a value); and were the two
resolved names equal, build would return `none` — the abort modelling the fatal
assertion — never a caller-recoverable error value. -/
theorem C9_assert_unreachable (E : Nat → Nat → Nat) (seed : Nat)
    (calls : List ConfigCall) (s s' : ComputerFuzzer)
    (hrun : runCalls E seed calls = some s)
    (heq : getMonitorFrom s'.video_outputs false = getMonitorFrom s'.video_outputs true) :
    s.build ≠ none ∧ s'.build = none := by
  refine ⟨(build_ne_none_iff s).mpr (runCalls_distinct hrun), ?_⟩
  have heq' : s'.get_monitor false = s'.get_monitor true := heq
  unfold ComputerFuzzer.build
  dsimp only
  rw [if_pos heq']

theorem C9_assert_unreachable_witness :
    runResult.build ≠ none ∧ badState.build = none :=
  C9_assert_unreachable testEntropy 0 [ConfigCall.with_n_monitors 2] runResult badState
    (by rfl) (by rfl)

/-- C10: build() takes the fuzzer by shared reference and consumes no
randomness: its result does not depend on the rand field, any two builds of the
same configured fuzzer agree on every summary field (and are equal), and the
fuzzer's configuration is unchanged (the embedding of build returns no
successor state). -/
theorem C10_build_pure (s : ComputerFuzzer) (r : StdRng) (c₁ c₂ : FuzzedComputer)
    (h₁ : s.build = some c₁) (h₂ : s.build = some c₂) :
    ComputerFuzzer.build { s with rand := r } = s.build
    ∧ c₁.primary_monitor = c₂.primary_monitor
    ∧ c₁.secondary_monitor = c₂.secondary_monitor
    ∧ c₁.monitors = c₂.monitors
    ∧ c₁.win32 = c₂.win32
    ∧ c₁ = c₂ := by
  have hc : c₁ = c₂ := Option.some.inj (h₁.symm.trans h₂)
  subst hc
  exact ⟨rfl, rfl, rfl, rfl, rfl, rfl⟩

theorem C10_build_pure_witness :
    ComputerFuzzer.build { demoState with rand := StdRng.seed_from_u64 9 }
      = demoState.build
    ∧ demoComputer = demoComputer :=
  ⟨(C10_build_pure demoState (StdRng.seed_from_u64 9) demoComputer demoComputer
      (by rfl) (by rfl)).1,
    (C10_build_pure demoState (StdRng.seed_from_u64 9) demoComputer demoComputer
      (by rfl) (by rfl)).2.2.2.2.2⟩

end ConvertibleCouch
